import Mathlib

/-!
Verification development for the semantix crawl-and-extract pipeline.

The Python sources are shallowly embedded as executable Lean definitions:

* `src/semantix/crawler/post_processing_urls.py` → `validate_url`, `process_jobs`
* `src/semantix/crawler/html_downloader.py` → `download_html`, `processUrls`,
  `sanitize_filename`
* `src/semantix/crawler/url_fetcher.py` → `parseStep`, `crawlFrom`
* `src/semantix/processor/job_html_extractor.py` → `extract_job_posting`,
  `extract_salary_info`, `parse_location`
* `src/semantix/models/job_posting.py` → `JobPosting`, `to_dict`, `from_dict`

Python regular expressions are modelled by a small backtracking matcher
(`Regex.mAux`) over a regex AST, with Python ordering: alternatives are tried
left to right and repetition is greedy.  The matcher is fuel-bounded; all
concrete evaluations in this file are run with ample fuel.
-/

namespace Semantix

/-! ## String helpers mirroring the Python string methods used by the code -/

/-- Substring test: `needle in haystack` (Python `in` on strings). -/
def containsSub (needle haystack : String) : Bool :=
  (List.range (haystack.data.length + 1)).any
    (fun i => needle.data.isPrefixOf (haystack.data.drop i))

/-- Python `str.title()` restricted to ASCII letters: a letter that follows a
letter is lowercased, a letter that follows a non-letter is uppercased. -/
def pyTitle (s : String) : String :=
  (((s.data.foldl
      (fun (acc : List Char × Bool) c =>
        if c.isAlpha then
          ((if acc.2 then c.toLower else c.toUpper) :: acc.1, true)
        else (c :: acc.1, false))
      ([], false)).1).reverse).asString

/-- Python `str.strip('_')`: remove leading and trailing underscores. -/
def stripUnderscores (s : String) : String :=
  ((((s.data.dropWhile (fun c => c == '_')).reverse).dropWhile
    (fun c => c == '_')).reverse).asString

/-- Python `s.replace(a, b)` for one-character `a`, `b`. -/
def replaceChar (a b : Char) (s : String) : String :=
  (s.data.map (fun c => if c == a then b else c)).asString

/-- Python `s.replace(a, "")` for a one-character `a`. -/
def removeChar (a : Char) (s : String) : String :=
  (s.data.filter (fun c => !(c == a))).asString

/-- Python `str.split(sep)` for a one-character separator. -/
def splitOnChar (sep : Char) : List Char → List (List Char)
  | [] => [[]]
  | c :: cs =>
    let r := splitOnChar sep cs
    if c == sep then [] :: r
    else
      match r with
      | [] => [[c]]
      | h :: t => (c :: h) :: t

/-- Whitespace characters for `str.strip()`. -/
def isPyWhite (c : Char) : Bool :=
  c == ' ' || c == '\t' || c == '\n' || c == '\r'

/-- Python `str.strip()` (common whitespace). -/
def pyStrip (s : String) : String :=
  ((((s.data.dropWhile isPyWhite).reverse).dropWhile isPyWhite).reverse).asString

/-- Python `str.endswith(suf)`. -/
def strEndsWith (suf s : String) : Bool := List.isSuffixOf suf.data s.data

/-- Prefix of a character list up to (excluding) the first `stop`. -/
def takeUntilChar (stop : Char) : List Char → List Char
  | [] => []
  | c :: cs => if c == stop then [] else c :: takeUntilChar stop cs

/-- Suffix after the first occurrence of `sep`, `none` when absent. -/
def dropThroughSep (sep : List Char) : List Char → Option (List Char)
  | [] => if sep.isEmpty then some [] else none
  | c :: cs =>
    if sep.isPrefixOf (c :: cs) then some ((c :: cs).drop sep.length)
    else dropThroughSep sep cs

/-- Suffix starting at the first occurrence of `stop` (inclusive). -/
def dropUntilChar (stop : Char) : List Char → List Char
  | [] => []
  | c :: cs => if c == stop then c :: cs else dropUntilChar stop cs

/-! ## A fragment of Python `re`

Character classes are predicates; `Regex.star` is greedy with backtracking,
`Regex.alt` prefers its left branch, as in Python.  Groups carry the Python
group number and an optional name (for `(?P<name>...)`). -/

inductive Regex where
  | eps
  | cls (p : Char → Bool)
  | cat (a b : Regex)
  | alt (a b : Regex)
  | star (a : Regex)
  | group (idx : Nat) (nm : Option String) (a : Regex)

/-- Regex size, used to compute a sufficient matcher fuel. -/
def Regex.size : Regex → Nat
  | .eps => 1
  | .cls _ => 1
  | .cat a b => a.size + b.size + 1
  | .alt a b => a.size + b.size + 1
  | .star a => a.size + 1
  | .group _ _ a => a.size + 1

/-- Greedy one-or-more repetition (`+`). -/
def Regex.rplus (r : Regex) : Regex := .cat r (.star r)

/-- Literal string regex. -/
def Regex.strLit (s : String) : Regex :=
  s.data.foldr (fun c acc => .cat (.cls (fun d => d == c)) acc) .eps

/-- Class `.` (any character). -/
def Regex.anyc : Regex := .cls (fun _ => true)

/-- Class `\d`. -/
def Regex.digitc : Regex := .cls Char.isDigit

/-- Class `[\w-]` (word character or hyphen). -/
def Regex.wordDash : Regex := .cls (fun c => c.isAlphanum || c == '_' || c == '-')

/-- Captures: group number, optional group name, captured characters.  The
most recent capture of a group is first in the list. -/
abbrev Caps := List (Nat × Option String × List Char)

/-- Backtracking matcher in continuation-passing style, Python order: the
continuation receives the remaining input and the captures on success.  Fuel
bounds the recursion depth; every top-level use supplies ample fuel. -/
def Regex.mAux : Nat → Regex → List Char → Caps →
    (List Char → Caps → Option (List Char × Caps)) → Option (List Char × Caps)
  | 0, _, _, _, _ => none
  | _ + 1, .eps, s, caps, k => k s caps
  | _ + 1, .cls p, s, caps, k =>
    match s with
    | [] => none
    | c :: rest => if p c then k rest caps else none
  | fuel + 1, .cat a b, s, caps, k =>
    Regex.mAux fuel a s caps (fun s2 c2 => Regex.mAux fuel b s2 c2 k)
  | fuel + 1, .alt a b, s, caps, k =>
    match Regex.mAux fuel a s caps k with
    | some r => some r
    | none => Regex.mAux fuel b s caps k
  | fuel + 1, .star a, s, caps, k =>
    match Regex.mAux fuel a s caps (fun s2 c2 =>
        if s2.length < s.length then Regex.mAux fuel (.star a) s2 c2 k else none) with
    | some r => some r
    | none => k s caps
  | fuel + 1, .group i nm a, s, caps, k =>
    Regex.mAux fuel a s caps
      (fun s2 c2 => k s2 ((i, nm, s.take (s.length - s2.length)) :: c2))

/-- Fuel sufficient for the concrete patterns and inputs in this file. -/
def Regex.fuelFor (r : Regex) (s : List Char) : Nat :=
  (r.size + 2) * (s.length + 2)

/-- Python `re.match(r, s)`: anchored at the start of `s`, not at its end.
Returns the remaining (unconsumed) input and the captures. -/
def pyMatch (r : Regex) (s : String) : Option (List Char × Caps) :=
  Regex.mAux (r.fuelFor s.data) r s.data [] (fun rest caps => some (rest, caps))

/-- Full match (the whole input is consumed): the semantics the spec's
"full match" wording would require.  Failing continuations make the matcher
backtrack, so this is genuine `re.fullmatch` behaviour. -/
def pyFullMatch (r : Regex) (s : String) : Bool :=
  (Regex.mAux (r.fuelFor s.data) r s.data []
    (fun rest caps => if rest.isEmpty then some (rest, caps) else none)).isSome

/-- Python `re.search` on the suffixes of `s`: leftmost match, returning its
captures. -/
def pySearchAux (r : Regex) : List Char → Option Caps
  | [] =>
    match Regex.mAux (r.fuelFor []) r [] [] (fun rest caps => some (rest, caps)) with
    | some (_, caps) => some caps
    | none => none
  | c :: rest =>
    match Regex.mAux (r.fuelFor (c :: rest)) r (c :: rest) []
        (fun remaining caps => some (remaining, caps)) with
    | some (_, caps) => some caps
    | none => pySearchAux r rest

/-- Python `re.search(r, s)` captures of the leftmost match. -/
def pySearchCaps (r : Regex) (s : String) : Option Caps := pySearchAux r s.data

/-- Python `bool(re.search(r, s))`. -/
def pySearchB (r : Regex) (s : String) : Bool := (pySearchCaps r s).isSome

/-- Group names of a regex in order of appearance (Python forbids duplicate
group names, so the order is the `groupdict` key order). -/
def Regex.names : Regex → List String
  | .eps => []
  | .cls _ => []
  | .cat a b => a.names ++ b.names
  | .alt a b => a.names ++ b.names
  | .star a => a.names
  | .group _ nm a => (match nm with | some n => [n] | none => []) ++ a.names

/-- Latest capture of the named group, if the group participated. -/
def capsName (caps : Caps) (n : String) : Option String :=
  match caps.find? (fun e => e.2.1 == some n) with
  | some e => some e.2.2.asString
  | none => none

/-- Latest capture of the numbered group, if the group participated. -/
def capsNum (caps : Caps) (i : Nat) : Option String :=
  match caps.find? (fun e => e.1 == i) with
  | some e => some e.2.2.asString
  | none => none

/-- Python `match.groupdict()`: every named group of the pattern mapped to its
capture, `none` (Python `None`) for groups that did not participate. -/
def groupdictOf (r : Regex) (caps : Caps) : List (String × Option String) :=
  r.names.map (fun n => (n, capsName caps n))

/-! ## post_processing_urls.py: validate_url -/

/-- url_validation section of the pattern YAML.  A missing or empty
`valid_pattern` string is modelled as `none`. -/
structure ValidationConfig where
  invalid_patterns : List Regex
  valid_pattern : Option Regex
  extracted_fields : List String

/-- Lookup in a Python-dict-like association list; the outer `Option` is key
presence, the inner `Option String` is the stored value (`none` = `None`). -/
def dictFind (d : List (String × Option String)) (k : String) :
    Option (Option String) :=
  match d.find? (fun e => e.1 == k) with
  | some e => some e.2
  | none => none

/-- Replace the value stored under an existing key, keeping dict order. -/
def dictSet (d : List (String × Option String)) (k : String) (v : Option String) :
    List (String × Option String) :=
  d.map (fun e => if e.1 == k then (e.1, v) else e)

/-- Python `d.get(k, "")`: stored value when the key is present (possibly
`None`), otherwise the default `""`. -/
def dictGetD (d : List (String × Option String)) (k : String) : Option String :=
  match dictFind d k with
  | some v => v
  | none => some ""

/-- Embedding of `validate_url` (post_processing_urls.py:44-85): reject empty
URLs and URLs matching any invalid pattern, require `re.match` against the
valid pattern, clean up a truthy `job_title` capture, then default every
configured extracted field whose key is absent to the empty string. -/
def validate_url (url : String) (cfg : ValidationConfig) :
    Option (List (String × Option String)) :=
  if url = "" then none
  else if cfg.invalid_patterns.any (fun p => pySearchB p url) then none
  else
    match cfg.valid_pattern with
    | none => none
    | some vp =>
      match pyMatch vp url with
      | none => none
      | some (_, caps) =>
        let extracted := groupdictOf vp caps
        let extracted :=
          match dictFind extracted "job_title" with
          | some (some t) =>
            if t ≠ "" then
              dictSet extracted "job_title" (some (pyTitle (replaceChar '-' ' ' t)))
            else extracted
          | _ => extracted
        let extracted := cfg.extracted_fields.foldl
          (fun acc f =>
            if (dictFind acc f).isSome then acc else acc ++ [(f, some "")])
          extracted
        some extracted

/-! ## post_processing_urls.py: process_jobs -/

/-- One entry of the input `jobs` array (url_fetcher.py output format). -/
structure InputJob where
  url : String := ""
  title : String := ""
  location : String := ""
  department : String := ""
  job_type : String := ""
  posted_date : String := ""
  company : String := ""
  source_url : String := ""
  metadata : List (String × String) := []
deriving DecidableEq, Repr

/-- Input artifact of process_jobs. -/
structure ProcessInput where
  source_url : String := ""
  company_name : String := ""
  total_pages_crawled : Nat := 0
  jobs : List InputJob := []

/-- One processed job entry.  Fields read from the validation result through
`.get(k, "")` may be Python `None`, hence `Option String`. -/
structure ProcessedJob where
  url : String
  job_id : Option String
  team : Option String
  job_title : Option String
  title : String
  location : String
  department : String
  job_type : String
  posted_date : String
  company : String
  source_url : String
  metadata : List (String × String)
  extracted_fields : List (String × Option String)
deriving DecidableEq, Repr

/-- The five processing statistics. -/
structure Stats where
  original_count : Nat := 0
  valid_count : Nat := 0
  invalid_count : Nat := 0
  duplicate_count : Nat := 0
  final_count : Nat := 0
deriving DecidableEq, Repr

/-- Output of process_jobs (timestamp omitted: it is wall-clock metadata). -/
structure ProcessOutput where
  source_url : String
  original_total_jobs : Nat
  processed_total_jobs : Nat
  processing_stats : Stats
  company_name : String
  total_pages_crawled : Nat
  jobs : List ProcessedJob

/-- Membership of a possibly-`None` job id in the seen set.  The Python seen
set only ever holds truthy (non-empty) strings. -/
def jidMem (jid : Option String) (seen : List String) : Bool :=
  match jid with
  | some s => seen.contains s
  | none => false

/-- Python `if job_id: seen_job_ids.add(job_id)`. -/
def jidInsert (jid : Option String) (seen : List String) : List String :=
  match jid with
  | some s => if s ≠ "" then s :: seen else seen
  | none => seen

/-- Build the processed job entry (post_processing_urls.py:133-147). -/
def mkProcessed (job : InputJob) (vres : List (String × Option String)) :
    ProcessedJob where
  url := job.url
  job_id := dictGetD vres "job_id"
  team := dictGetD vres "team"
  job_title := dictGetD vres "job_title"
  title := job.title
  location := job.location
  department := job.department
  job_type := job.job_type
  posted_date := job.posted_date
  company := job.company
  source_url := job.source_url
  metadata := job.metadata
  extracted_fields := vres

/-- One iteration of the process_jobs loop (post_processing_urls.py:111-149).
State: statistics, seen job-id set, kept jobs in order. -/
def processStep (cfg : ValidationConfig)
    (st : Stats × List String × List ProcessedJob) (job : InputJob) :
    Stats × List String × List ProcessedJob :=
  match validate_url job.url cfg with
  | none =>
    ({ st.1 with invalid_count := st.1.invalid_count + 1 }, st.2.1, st.2.2)
  | some vres =>
    let stats := { st.1 with valid_count := st.1.valid_count + 1 }
    let jid := dictGetD vres "job_id"
    if jidMem jid st.2.1 then
      ({ stats with duplicate_count := stats.duplicate_count + 1 }, st.2.1, st.2.2)
    else
      (stats, jidInsert jid st.2.1, st.2.2 ++ [mkProcessed job vres])

/-- Embedding of `process_jobs` (post_processing_urls.py:88-165). -/
def process_jobs (input : ProcessInput) (cfg : ValidationConfig) : ProcessOutput :=
  let init : Stats × List String × List ProcessedJob :=
    ({ original_count := input.jobs.length }, [], [])
  let fin := input.jobs.foldl (processStep cfg) init
  { source_url := input.source_url
    original_total_jobs := fin.1.original_count
    processed_total_jobs := fin.2.2.length
    processing_stats := { fin.1 with final_count := fin.2.2.length }
    company_name := input.company_name
    total_pages_crawled := input.total_pages_crawled
    jobs := fin.2.2 }

/-- Processed versions of the valid jobs of a batch, in input order. -/
def validJobs (cfg : ValidationConfig) (jobs : List InputJob) : List ProcessedJob :=
  jobs.filterMap (fun j => (validate_url j.url cfg).map (mkProcessed j))

/-- First-occurrence deduplication on truthy job ids, the shape of the
process_jobs loop restricted to its kept-jobs effect. -/
def dedupFirstAux (seen : List String) : List ProcessedJob → List ProcessedJob
  | [] => []
  | p :: t =>
    if jidMem p.job_id seen then dedupFirstAux seen t
    else p :: dedupFirstAux (jidInsert p.job_id seen) t

/-! ## html_downloader.py: download_html -/

/-- Outcome of one network attempt, the events `urlopen` can produce:
success, `socket.timeout`, `HTTPError` (carrying the status code),
`URLError` (connection errors), or any other exception. -/
inductive FetchOutcome where
  | success (content : String)
  | timeout
  | httpError (code : Nat) (reason : String)
  | urlError (reason : String)
  | otherError (msg : String)
deriving DecidableEq, Repr

/-- Message recorded for a timeout (html_downloader.py:96). -/
def timeoutMsg (t : Nat) : String := "Timeout after " ++ toString t ++ "s"

/-- Message recorded for an HTTP error (html_downloader.py:103). -/
def httpMsg (code : Nat) (reason : String) : String :=
  "HTTP " ++ toString code ++ ": " ++ reason

/-- Message recorded for a URL error (html_downloader.py:112). -/
def urlErrMsg (reason : String) : String := "URL error: " ++ reason

/-- Message recorded for an unexpected error (html_downloader.py:121). -/
def otherErrMsg (m : String) : String := "Unexpected error: " ++ m

/-- The `last_exception` message a failing outcome sets. -/
def failureMsg (t : Nat) : FetchOutcome → Option String
  | .success _ => none
  | .timeout => some (timeoutMsg t)
  | .httpError c r => some (httpMsg c r)
  | .urlError r => some (urlErrMsg r)
  | .otherError m => some (otherErrMsg m)

/-- The retryable failure classes named by the spec: timeout, connection
error, HTTP 5xx. -/
def isRetryableFailure : FetchOutcome → Bool
  | .timeout => true
  | .urlError _ => true
  | .httpError c _ => 500 ≤ c && c ≤ 599
  | _ => false

/-- Observable result of `download_html`: returned content, the last
`last_exception` message, the backoff sleeps performed in order, and the
number of attempts made. -/
structure DownloadResult where
  content : Option String
  lastException : Option String
  sleeps : List Nat
  attempts : Nat
deriving DecidableEq, Repr

/-- The retry loop of `download_html` (html_downloader.py:84-130).  `fuel`
models the remaining iterations of `range(max_retries + 1)`; `attempt` is the
current index; sleeps accumulate in reverse.  `outcomes i` is what the `i`-th
network attempt does. -/
def downloadAux (outcomes : Nat → FetchOutcome) (maxRetries timeoutSecs : Nat) :
    Nat → Nat → List Nat → Option String → DownloadResult
  | 0, attempt, sleeps, exc => ⟨none, exc, sleeps.reverse, attempt⟩
  | fuel + 1, attempt, sleeps, exc =>
    match outcomes attempt with
    | .success c => ⟨some c, exc, sleeps.reverse, attempt + 1⟩
    | .timeout =>
      let e := some (timeoutMsg timeoutSecs)
      if attempt < maxRetries then
        downloadAux outcomes maxRetries timeoutSecs fuel (attempt + 1)
          (2 ^ attempt :: sleeps) e
      else
        downloadAux outcomes maxRetries timeoutSecs fuel (attempt + 1) sleeps e
    | .httpError code reason =>
      let e := some (httpMsg code reason)
      if 500 ≤ code ∧ attempt < maxRetries then
        downloadAux outcomes maxRetries timeoutSecs fuel (attempt + 1)
          (2 ^ attempt :: sleeps) e
      else
        ⟨none, e, sleeps.reverse, attempt + 1⟩
    | .urlError reason =>
      let e := some (urlErrMsg reason)
      if attempt < maxRetries then
        downloadAux outcomes maxRetries timeoutSecs fuel (attempt + 1)
          (2 ^ attempt :: sleeps) e
      else
        ⟨none, e, sleeps.reverse, attempt + 1⟩
    | .otherError m =>
      let e := some (otherErrMsg m)
      if attempt < maxRetries then
        downloadAux outcomes maxRetries timeoutSecs fuel (attempt + 1)
          (2 ^ attempt :: sleeps) e
      else
        ⟨none, e, sleeps.reverse, attempt + 1⟩

/-- Embedding of `HTMLDownloader.download_html`. -/
def download_html (outcomes : Nat → FetchOutcome) (maxRetries timeoutSecs : Nat) :
    DownloadResult :=
  downloadAux outcomes maxRetries timeoutSecs (maxRetries + 1) 0 [] none

/-! ## html_downloader.py: process_urls_from_json -/

/-- The path component of a URL, the part of `urlparse(url).path` behaviour
needed here: strip fragment and query, then the part after scheme and
authority. -/
def urlPath (url : String) : String :=
  let cs := takeUntilChar '?' (takeUntilChar '#' url.data)
  match dropThroughSep "://".data cs with
  | none => cs.asString
  | some rest => (dropUntilChar '/' rest).asString

/-- The characters stripped by `sanitize_filename`. -/
def invalidFileChars : List Char := ['<', '>', ':', '"', '|', '?', '*']

/-- Embedding of `HTMLDownloader.sanitize_filename`
(html_downloader.py:44-72). -/
def sanitize_filename (url : String) (jobId : String) : String :=
  let p := replaceChar '/' '_' (urlPath url)
  let base := if jobId ≠ "" then jobId ++ "_" ++ p else p
  let base := invalidFileChars.foldl (fun b c => replaceChar c '_' b) base
  let base := stripUnderscores base
  if strEndsWith ".html" base then base else base ++ ".html"

/-- One entry of the `jobs` array given to the downloader. -/
structure DLJob where
  url : Option String := none
  job_id : String := ""
deriving DecidableEq, Repr

/-- Environment of a downloader run: which destination files exist, what
each attempt at each URL does, and whether writing a file succeeds. -/
structure DLEnv where
  fileExists : String → Bool
  outcomes : String → Nat → FetchOutcome
  writeOk : String → Bool

/-- Observable events of a downloader batch run, in order. -/
inductive DLEvent where
  | skipNoUrl
  | skipExists (filename : String)
  | netRequest (url : String)
  | saved (filename : String)
  | saveFailed (filename : String)
  | politeSleep
deriving DecidableEq, Repr

/-- The loop body of `process_urls_from_json` (html_downloader.py:158-196):
`n` is `total_jobs`, `i` the 1-based index.  Returns the event trace and the
(success, failed) counters.  A missing URL or an existing destination file
`continue`s, skipping the politeness sleep; a download attempt sleeps
afterwards whenever `i < n`. -/
def processUrlsAux (env : DLEnv) (maxRetries timeoutSecs n : Nat) :
    Nat → List DLJob → List DLEvent × Nat × Nat
  | _, [] => ([], 0, 0)
  | i, job :: rest =>
    let tail := processUrlsAux env maxRetries timeoutSecs n (i + 1) rest
    match job.url with
    | none => (DLEvent.skipNoUrl :: tail.1, tail.2.1, tail.2.2 + 1)
    | some u =>
      let filename := sanitize_filename u job.job_id
      if env.fileExists filename then
        (DLEvent.skipExists filename :: tail.1, tail.2.1 + 1, tail.2.2)
      else
        let res := download_html (env.outcomes u) maxRetries timeoutSecs
        let evs : List DLEvent × Nat × Nat :=
          match res.content with
          | some _ =>
            if env.writeOk filename then
              ([DLEvent.netRequest u, DLEvent.saved filename], 1, 0)
            else
              ([DLEvent.netRequest u, DLEvent.saveFailed filename], 0, 1)
          | none => ([DLEvent.netRequest u], 0, 1)
        let sleepEv : List DLEvent := if i < n then [DLEvent.politeSleep] else []
        (evs.1 ++ sleepEv ++ tail.1, evs.2.1 + tail.2.1, evs.2.2 + tail.2.2)

/-- Embedding of `HTMLDownloader.process_urls_from_json` restricted to its
per-job loop (the surrounding file reading is I/O). -/
def processUrls (env : DLEnv) (maxRetries timeoutSecs : Nat) (jobs : List DLJob) :
    List DLEvent × Nat × Nat :=
  processUrlsAux env maxRetries timeoutSecs jobs.length 1 jobs

/-- Download-related events (an actual fetch or its save). -/
def isDownloadEv : DLEvent → Bool
  | .netRequest _ => true
  | .saved _ => true
  | .saveFailed _ => true
  | _ => false

/-- A network request event. -/
def isNetReq : DLEvent → Bool
  | .netRequest _ => true
  | _ => false

/-- Helper for `claimSleepOnlyBetweenDownloads`: checks each sleep against
its predecessor and successor. -/
def sleepBetweenAux : Option DLEvent → List DLEvent → Bool
  | _, [] => true
  | prev, e :: rest =>
    match e with
    | .politeSleep =>
      (match prev with | some p => isDownloadEv p | none => false) &&
      (match rest with | f :: _ => isNetReq f | [] => false) &&
      sleepBetweenAux (some e) rest
    | _ => sleepBetweenAux (some e) rest

/-- Formalization of the claimed property, following the spec's words: every
politeness delay lies between successive distinct downloads — it directly
follows a download-related event and directly precedes the next network
request, never adjoining a cache hit. -/
def claimSleepOnlyBetweenDownloads (tr : List DLEvent) : Bool :=
  sleepBetweenAux none tr

/-- A job that actually attempts a download: it has a URL and its destination
file does not exist. -/
def dlAttempted (env : DLEnv) (job : DLJob) : Bool :=
  match job.url with
  | some u => !(env.fileExists (sanitize_filename u job.job_id))
  | none => false

/-- A cache hit: the job has a URL and its destination file already exists. -/
def dlCacheHit (env : DLEnv) (job : DLJob) : Bool :=
  match job.url with
  | some u => env.fileExists (sanitize_filename u job.job_id)
  | none => false

/-- A job whose download succeeds and whose file is written. -/
def dlSavedOk (env : DLEnv) (maxRetries timeoutSecs : Nat) (job : DLJob) : Bool :=
  match job.url with
  | some u =>
    !(env.fileExists (sanitize_filename u job.job_id)) &&
      (download_html (env.outcomes u) maxRetries timeoutSecs).content.isSome &&
      env.writeOk (sanitize_filename u job.job_id)
  | none => false

/-- Count of network request events in a trace. -/
def countNetReq (tr : List DLEvent) : Nat := (tr.filter isNetReq).length

/-- Count of politeness sleeps in a trace. -/
def countSleep (tr : List DLEvent) : Nat :=
  (tr.filter (fun e => e == DLEvent.politeSleep)).length

/-! ## url_fetcher.py: JobUrlSpider.parse -/

/-- A raw job stub; only the URL takes part in the spider's control flow. -/
structure Stub where
  url : String
deriving DecidableEq, Repr

/-- Mutable spider state (url_fetcher.py:40-47). -/
structure SpiderState where
  jobUrls : List Stub := []
  uniqueUrls : List String := []
  pagesCrawled : Nat := 0
  emptyPagesCount : Nat := 0
deriving DecidableEq, Repr

/-- `self.max_empty_pages = 5` (url_fetcher.py:46). -/
def maxEmptyPages : Nat := 5

/-- Add the unique jobs of a page (url_fetcher.py:140-144). -/
def addUniqueJobs (st : SpiderState) (jobs : List Stub) : SpiderState :=
  jobs.foldl
    (fun s j =>
      if s.uniqueUrls.contains j.url then s
      else { s with uniqueUrls := j.url :: s.uniqueUrls, jobUrls := s.jobUrls ++ [j] })
    st

/-- One invocation of `JobUrlSpider.parse` (url_fetcher.py:79-166): check the
next-page availability, queue the next page request if available (this
happens before stub extraction), extract the page's stubs, merge unique
ones, update the consecutive-empty-page counter — which is only logged when
it reaches `maxEmptyPages`, never acted on — and bump `pages_crawled`.
Returns the new state and whether the next page was requested. -/
def parseStep (paginationEnabled : Bool) (checkNext : Nat → Bool)
    (pageJobs : Nat → List Stub) (st : SpiderState) (currentPage : Nat) :
    SpiderState × Bool :=
  let hasNext := paginationEnabled && checkNext currentPage
  let jobs := pageJobs currentPage
  let st2 := addUniqueJobs st jobs
  let st3 :=
    if jobs.length = 0 then { st2 with emptyPagesCount := st2.emptyPagesCount + 1 }
    else { st2 with emptyPagesCount := 0 }
  ({ st3 with pagesCrawled := st3.pagesCrawled + 1 }, hasNext)

/-- Sequential page-by-page crawl (requests are processed one at a time with
`CONCURRENT_REQUESTS = 1`): run `parse` on each page, following the queued
next-page requests; `req` accumulates the requested page numbers in reverse.
Fuel bounds the run length. -/
def crawlFrom (pe : Bool) (cn : Nat → Bool) (pj : Nat → List Stub) :
    Nat → SpiderState → Nat → List Nat → SpiderState × List Nat
  | 0, st, _, req => (st, req.reverse)
  | fuel + 1, st, page, req =>
    let r := parseStep pe cn pj st page
    if r.2 then crawlFrom pe cn pj fuel r.1 (page + 1) ((page + 1) :: req)
    else (r.1, req.reverse)

/-- The initial spider state. -/
def initSpider : SpiderState := {}

/-! ## models/job_posting.py: enumerations and JobPosting -/

/-- Python `str.lower()` (ASCII). -/
def pyLower (s : String) : String := (s.data.map Char.toLower).asString

/-- Enumeration `JobType`. -/
inductive JobType where
  | full_time
  | part_time
  | contract
  | temporary
  | internship
  | freelance
  | volunteer
deriving DecidableEq, Repr

/-- The `.value` string of a `JobType`. -/
def JobType.value : JobType → String
  | .full_time => "full_time"
  | .part_time => "part_time"
  | .contract => "contract"
  | .temporary => "temporary"
  | .internship => "internship"
  | .freelance => "freelance"
  | .volunteer => "volunteer"

/-- The `JobType(s)` constructor: `none` models the `ValueError` raised on an
unrecognized value. -/
def JobType.fromValue (s : String) : Option JobType :=
  if s = "full_time" then some .full_time
  else if s = "part_time" then some .part_time
  else if s = "contract" then some .contract
  else if s = "temporary" then some .temporary
  else if s = "internship" then some .internship
  else if s = "freelance" then some .freelance
  else if s = "volunteer" then some .volunteer
  else none

/-- Enumeration `ExperienceLevel`. -/
inductive ExperienceLevel where
  | entry_level
  | associate
  | mid_level
  | senior_level
  | director
  | executive
  | internship
  | not_applicable
deriving DecidableEq, Repr

/-- The `.value` string of an `ExperienceLevel`. -/
def ExperienceLevel.value : ExperienceLevel → String
  | .entry_level => "entry_level"
  | .associate => "associate"
  | .mid_level => "mid_level"
  | .senior_level => "senior_level"
  | .director => "director"
  | .executive => "executive"
  | .internship => "internship"
  | .not_applicable => "not_applicable"

/-- The `ExperienceLevel(s)` constructor. -/
def ExperienceLevel.fromValue (s : String) : Option ExperienceLevel :=
  if s = "entry_level" then some .entry_level
  else if s = "associate" then some .associate
  else if s = "mid_level" then some .mid_level
  else if s = "senior_level" then some .senior_level
  else if s = "director" then some .director
  else if s = "executive" then some .executive
  else if s = "internship" then some .internship
  else if s = "not_applicable" then some .not_applicable
  else none

/-- Enumeration `WorkArrangement`. -/
inductive WorkArrangement where
  | on_site
  | remote
  | hybrid
deriving DecidableEq, Repr

/-- The `.value` string of a `WorkArrangement`. -/
def WorkArrangement.value : WorkArrangement → String
  | .on_site => "on_site"
  | .remote => "remote"
  | .hybrid => "hybrid"

/-- The `WorkArrangement(s)` constructor. -/
def WorkArrangement.fromValue (s : String) : Option WorkArrangement :=
  if s = "on_site" then some .on_site
  else if s = "remote" then some .remote
  else if s = "hybrid" then some .hybrid
  else none

/-- The `JobPosting` dataclass, fields in declaration order with their
defaults.  Python floats carrying parsed decimal salary figures are modelled
as rationals; the free-form `metadata: Dict[str, Any]` is modelled as a
string-valued map. -/
structure JobPosting where
  job_id : String
  title : String
  company : String
  description : String := ""
  summary : String := ""
  location : String := ""
  city : String := ""
  state : String := ""
  country : String := ""
  work_arrangement : Option WorkArrangement := none
  remote_work_option : Bool := false
  hybrid_option : Bool := false
  publish_date : Option String := none
  application_deadline : Option String := none
  start_date : Option String := none
  scraped_date : Option String := none
  job_type : Option JobType := none
  experience_level : Option ExperienceLevel := none
  department : String := ""
  team : String := ""
  division : String := ""
  salary_min : Option ℚ := none
  salary_max : Option ℚ := none
  salary_currency : String := "USD"
  hourly_rate_min : Option ℚ := none
  hourly_rate_max : Option ℚ := none
  benefits : List String := []
  pay_benefit : String := ""
  equity_compensation : Bool := false
  required_skills : List String := []
  preferred_skills : List String := []
  minimum_qualifications : List String := []
  preferred_qualifications : List String := []
  education_requirements : List String := []
  experience_requirements : List String := []
  certifications : List String := []
  languages : List String := []
  application_url : String := ""
  contact_email : String := ""
  contact_person : String := ""
  application_instructions : String := ""
  company_size : String := ""
  industry : String := ""
  company_website : String := ""
  company_description : String := ""
  work_schedule : String := ""
  visa_sponsorship : Option Bool := none
  security_clearance_required : Option Bool := none
  travel_required : Option String := none
  relocation_assistance : Option Bool := none
  source_url : String := ""
  source_platform : String := ""
  metadata : List (String × String) := []
deriving DecidableEq, Repr

/-- JSON-able values appearing in a serialized JobPosting dict. -/
inductive JVal where
  | s (v : String)
  | b (v : Bool)
  | n (v : ℚ)
  | nil
  | list (vs : List String)
  | meta (m : List (String × String))
deriving DecidableEq, Repr

/-- Encoding of an optional string (`asdict` keeps `None`). -/
def encOptStr : Option String → JVal
  | some v => .s v
  | none => .nil

/-- Encoding of an optional number. -/
def encOptNum : Option ℚ → JVal
  | some v => .n v
  | none => .nil

/-- Encoding of an optional boolean. -/
def encOptBool : Option Bool → JVal
  | some v => .b v
  | none => .nil

/-- to_dict overwrites a set (truthy) job_type with its `.value` string
(job_posting.py:139-140); `None` stays `None` from `asdict`. -/
def encJobType : Option JobType → JVal
  | some t => .s t.value
  | none => .nil

/-- Like `encJobType` for experience_level. -/
def encExpLevel : Option ExperienceLevel → JVal
  | some t => .s t.value
  | none => .nil

/-- Like `encJobType` for work_arrangement. -/
def encWorkArr : Option WorkArrangement → JVal
  | some t => .s t.value
  | none => .nil

/-- Embedding of `JobPosting.to_dict` (job_posting.py:127-146): `asdict`
output in field order, with the three enum fields serialized to their value
strings when set. -/
def to_dict (p : JobPosting) : List (String × JVal) :=
  [("job_id", .s p.job_id), ("title", .s p.title), ("company", .s p.company),
    ("description", .s p.description), ("summary", .s p.summary),
    ("location", .s p.location), ("city", .s p.city), ("state", .s p.state),
    ("country", .s p.country),
    ("work_arrangement", encWorkArr p.work_arrangement),
    ("remote_work_option", .b p.remote_work_option),
    ("hybrid_option", .b p.hybrid_option),
    ("publish_date", encOptStr p.publish_date),
    ("application_deadline", encOptStr p.application_deadline),
    ("start_date", encOptStr p.start_date),
    ("scraped_date", encOptStr p.scraped_date),
    ("job_type", encJobType p.job_type),
    ("experience_level", encExpLevel p.experience_level),
    ("department", .s p.department), ("team", .s p.team),
    ("division", .s p.division),
    ("salary_min", encOptNum p.salary_min),
    ("salary_max", encOptNum p.salary_max),
    ("salary_currency", .s p.salary_currency),
    ("hourly_rate_min", encOptNum p.hourly_rate_min),
    ("hourly_rate_max", encOptNum p.hourly_rate_max),
    ("benefits", .list p.benefits), ("pay_benefit", .s p.pay_benefit),
    ("equity_compensation", .b p.equity_compensation),
    ("required_skills", .list p.required_skills),
    ("preferred_skills", .list p.preferred_skills),
    ("minimum_qualifications", .list p.minimum_qualifications),
    ("preferred_qualifications", .list p.preferred_qualifications),
    ("education_requirements", .list p.education_requirements),
    ("experience_requirements", .list p.experience_requirements),
    ("certifications", .list p.certifications),
    ("languages", .list p.languages),
    ("application_url", .s p.application_url),
    ("contact_email", .s p.contact_email),
    ("contact_person", .s p.contact_person),
    ("application_instructions", .s p.application_instructions),
    ("company_size", .s p.company_size), ("industry", .s p.industry),
    ("company_website", .s p.company_website),
    ("company_description", .s p.company_description),
    ("work_schedule", .s p.work_schedule),
    ("visa_sponsorship", encOptBool p.visa_sponsorship),
    ("security_clearance_required", encOptBool p.security_clearance_required),
    ("travel_required", encOptStr p.travel_required),
    ("relocation_assistance", encOptBool p.relocation_assistance),
    ("source_url", .s p.source_url),
    ("source_platform", .s p.source_platform),
    ("metadata", .meta p.metadata)]

/-- Dict lookup (first binding wins, as Python dict keys are unique). -/
def jget (d : List (String × JVal)) (k : String) : Option JVal :=
  match d.find? (fun e => e.1 == k) with
  | some e => some e.2
  | none => none

/-- Decoder for a plain string field. -/
def decStr : JVal → Option String
  | .s v => some v
  | _ => none

/-- Decoder for an optional string field. -/
def decOptStr : JVal → Option (Option String)
  | .s v => some (some v)
  | .nil => some none
  | _ => none

/-- Decoder for a boolean field. -/
def decBool : JVal → Option Bool
  | .b v => some v
  | _ => none

/-- Decoder for an optional boolean field. -/
def decOptBool : JVal → Option (Option Bool)
  | .b v => some (some v)
  | .nil => some none
  | _ => none

/-- Decoder for an optional numeric field. -/
def decOptNum : JVal → Option (Option ℚ)
  | .n v => some (some v)
  | .nil => some none
  | _ => none

/-- Decoder for a string-list field. -/
def decList : JVal → Option (List String)
  | .list v => some v
  | _ => none

/-- Decoder for the metadata map. -/
def decMeta : JVal → Option (List (String × String))
  | .meta v => some v
  | _ => none

/-- from_dict converts a job_type string through `JobType(...)`, mapping an
unrecognized value to `None` (job_posting.py:183-187). -/
def decJobType : JVal → Option (Option JobType)
  | .s v => some (JobType.fromValue v)
  | .nil => some none
  | _ => none

/-- Like `decJobType` for experience_level (job_posting.py:189-193). -/
def decExpLevel : JVal → Option (Option ExperienceLevel)
  | .s v => some (ExperienceLevel.fromValue v)
  | .nil => some none
  | _ => none

/-- Like `decJobType` for work_arrangement (job_posting.py:195-199). -/
def decWorkArr : JVal → Option (Option WorkArrangement)
  | .s v => some (WorkArrangement.fromValue v)
  | .nil => some none
  | _ => none

/-- Required field: a missing key makes the dataclass constructor raise
(`TypeError`), modelled as `none`. -/
def getReq {α : Type} (d : List (String × JVal)) (k : String)
    (f : JVal → Option α) : Option α :=
  (jget d k).bind f

/-- Optional field: a missing key falls back to the dataclass default.  A
stored value whose shape does not fit the field's declared type is not
representable in this typed model and yields `none` (Python would store it
unchecked). -/
def getOpt {α : Type} (d : List (String × JVal)) (k : String)
    (f : JVal → Option α) (dflt : α) : Option α :=
  match jget d k with
  | none => some dflt
  | some v => f v

/-- Decoded fields, part 1 (identity and location strings). -/
structure FDIdent where
  job_id : String
  title : String
  company : String
  description : String
  summary : String
  location : String
  city : String
  state : String
  country : String

/-- Decoded fields, part 2 (arrangement, dates, enums). -/
structure FDWhen where
  work_arrangement : Option WorkArrangement
  remote_work_option : Bool
  hybrid_option : Bool
  publish_date : Option String
  application_deadline : Option String
  start_date : Option String
  scraped_date : Option String
  job_type : Option JobType
  experience_level : Option ExperienceLevel

/-- Decoded fields, part 3 (organization and compensation numbers). -/
structure FDComp where
  department : String
  team : String
  division : String
  salary_min : Option ℚ
  salary_max : Option ℚ
  salary_currency : String
  hourly_rate_min : Option ℚ
  hourly_rate_max : Option ℚ
  benefits : List String

/-- Decoded fields, part 4 (skills and qualification lists). -/
structure FDSkills where
  pay_benefit : String
  equity_compensation : Bool
  required_skills : List String
  preferred_skills : List String
  minimum_qualifications : List String
  preferred_qualifications : List String
  education_requirements : List String
  experience_requirements : List String
  certifications : List String

/-- Decoded fields, part 5 (application and company strings). -/
structure FDApply where
  languages : List String
  application_url : String
  contact_email : String
  contact_person : String
  application_instructions : String
  company_size : String
  industry : String
  company_website : String
  company_description : String

/-- Decoded fields, part 6 (the remaining optionals and metadata). -/
structure FDMisc where
  work_schedule : String
  visa_sponsorship : Option Bool
  security_clearance_required : Option Bool
  travel_required : Option String
  relocation_assistance : Option Bool
  source_url : String
  source_platform : String
  metadata : List (String × String)

/-- Decoder chunk 1 of `from_dict`. -/
def fdIdent (d : List (String × JVal)) : Option FDIdent := do
  let job_id ← getReq d "job_id" decStr
  let title ← getReq d "title" decStr
  let company ← getReq d "company" decStr
  let description ← getOpt d "description" decStr ""
  let summary ← getOpt d "summary" decStr ""
  let location ← getOpt d "location" decStr ""
  let city ← getOpt d "city" decStr ""
  let state ← getOpt d "state" decStr ""
  let country ← getOpt d "country" decStr ""
  pure ({ job_id, title, company, description, summary, location, city,
          state, country } : FDIdent)

/-- Decoder chunk 2 of `from_dict`. -/
def fdWhen (d : List (String × JVal)) : Option FDWhen := do
  let work_arrangement ← getOpt d "work_arrangement" decWorkArr none
  let remote_work_option ← getOpt d "remote_work_option" decBool false
  let hybrid_option ← getOpt d "hybrid_option" decBool false
  let publish_date ← getOpt d "publish_date" decOptStr none
  let application_deadline ← getOpt d "application_deadline" decOptStr none
  let start_date ← getOpt d "start_date" decOptStr none
  let scraped_date ← getOpt d "scraped_date" decOptStr none
  let job_type ← getOpt d "job_type" decJobType none
  let experience_level ← getOpt d "experience_level" decExpLevel none
  pure ({ work_arrangement, remote_work_option, hybrid_option, publish_date,
          application_deadline, start_date, scraped_date, job_type,
          experience_level } : FDWhen)

/-- Decoder chunk 3 of `from_dict`. -/
def fdComp (d : List (String × JVal)) : Option FDComp := do
  let department ← getOpt d "department" decStr ""
  let team ← getOpt d "team" decStr ""
  let division ← getOpt d "division" decStr ""
  let salary_min ← getOpt d "salary_min" decOptNum none
  let salary_max ← getOpt d "salary_max" decOptNum none
  let salary_currency ← getOpt d "salary_currency" decStr "USD"
  let hourly_rate_min ← getOpt d "hourly_rate_min" decOptNum none
  let hourly_rate_max ← getOpt d "hourly_rate_max" decOptNum none
  let benefits ← getOpt d "benefits" decList []
  pure ({ department, team, division, salary_min, salary_max,
          salary_currency, hourly_rate_min, hourly_rate_max,
          benefits } : FDComp)

/-- Decoder chunk 4 of `from_dict`. -/
def fdSkills (d : List (String × JVal)) : Option FDSkills := do
  let pay_benefit ← getOpt d "pay_benefit" decStr ""
  let equity_compensation ← getOpt d "equity_compensation" decBool false
  let required_skills ← getOpt d "required_skills" decList []
  let preferred_skills ← getOpt d "preferred_skills" decList []
  let minimum_qualifications ← getOpt d "minimum_qualifications" decList []
  let preferred_qualifications ← getOpt d "preferred_qualifications" decList []
  let education_requirements ← getOpt d "education_requirements" decList []
  let experience_requirements ← getOpt d "experience_requirements" decList []
  let certifications ← getOpt d "certifications" decList []
  pure ({ pay_benefit, equity_compensation, required_skills,
          preferred_skills, minimum_qualifications,
          preferred_qualifications, education_requirements,
          experience_requirements, certifications } : FDSkills)

/-- Decoder chunk 5 of `from_dict`. -/
def fdApply (d : List (String × JVal)) : Option FDApply := do
  let languages ← getOpt d "languages" decList []
  let application_url ← getOpt d "application_url" decStr ""
  let contact_email ← getOpt d "contact_email" decStr ""
  let contact_person ← getOpt d "contact_person" decStr ""
  let application_instructions ← getOpt d "application_instructions" decStr ""
  let company_size ← getOpt d "company_size" decStr ""
  let industry ← getOpt d "industry" decStr ""
  let company_website ← getOpt d "company_website" decStr ""
  let company_description ← getOpt d "company_description" decStr ""
  pure ({ languages, application_url, contact_email, contact_person,
          application_instructions, company_size, industry,
          company_website, company_description } : FDApply)

/-- Decoder chunk 6 of `from_dict`. -/
def fdMisc (d : List (String × JVal)) : Option FDMisc := do
  let work_schedule ← getOpt d "work_schedule" decStr ""
  let visa_sponsorship ← getOpt d "visa_sponsorship" decOptBool none
  let security_clearance_required ←
    getOpt d "security_clearance_required" decOptBool none
  let travel_required ← getOpt d "travel_required" decOptStr none
  let relocation_assistance ← getOpt d "relocation_assistance" decOptBool none
  let source_url ← getOpt d "source_url" decStr ""
  let source_platform ← getOpt d "source_platform" decStr ""
  let metadata ← getOpt d "metadata" decMeta []
  pure ({ work_schedule, visa_sponsorship, security_clearance_required,
          travel_required, relocation_assistance, source_url,
          source_platform, metadata } : FDMisc)

/-- Embedding of `JobPosting.from_dict` (job_posting.py:171-205): enum
strings are converted (unrecognized ones to `None`), unknown keys are
ignored (the lookups never see them), missing keys fall back to the
dataclass defaults, and a missing required field (`TypeError` in Python)
yields `none`.  The decoding is split into six mechanical chunks. -/
def from_dict (d : List (String × JVal)) : Option JobPosting := do
  let a ← fdIdent d
  let b ← fdWhen d
  let c ← fdComp d
  let e ← fdSkills d
  let f ← fdApply d
  let g ← fdMisc d
  pure
    { job_id := a.job_id, title := a.title, company := a.company,
      description := a.description, summary := a.summary,
      location := a.location, city := a.city, state := a.state,
      country := a.country,
      work_arrangement := b.work_arrangement,
      remote_work_option := b.remote_work_option,
      hybrid_option := b.hybrid_option, publish_date := b.publish_date,
      application_deadline := b.application_deadline,
      start_date := b.start_date, scraped_date := b.scraped_date,
      job_type := b.job_type, experience_level := b.experience_level,
      department := c.department, team := c.team, division := c.division,
      salary_min := c.salary_min, salary_max := c.salary_max,
      salary_currency := c.salary_currency,
      hourly_rate_min := c.hourly_rate_min,
      hourly_rate_max := c.hourly_rate_max, benefits := c.benefits,
      pay_benefit := e.pay_benefit,
      equity_compensation := e.equity_compensation,
      required_skills := e.required_skills,
      preferred_skills := e.preferred_skills,
      minimum_qualifications := e.minimum_qualifications,
      preferred_qualifications := e.preferred_qualifications,
      education_requirements := e.education_requirements,
      experience_requirements := e.experience_requirements,
      certifications := e.certifications, languages := f.languages,
      application_url := f.application_url,
      contact_email := f.contact_email, contact_person := f.contact_person,
      application_instructions := f.application_instructions,
      company_size := f.company_size, industry := f.industry,
      company_website := f.company_website,
      company_description := f.company_description,
      work_schedule := g.work_schedule,
      visa_sponsorship := g.visa_sponsorship,
      security_clearance_required := g.security_clearance_required,
      travel_required := g.travel_required,
      relocation_assistance := g.relocation_assistance,
      source_url := g.source_url, source_platform := g.source_platform,
      metadata := g.metadata }

/-! ## job_html_extractor.py: salary extraction, location parsing, guards -/

/-- Decimal digits to a natural number. -/
def digitsToNat (cs : List Char) : Nat :=
  cs.foldl (fun n c => n * 10 + (c.toNat - '0'.toNat)) 0

/-- Python `float(s)` restricted to plain decimal numerals
(`digits`, `digits.digits`, `.digits`, `digits.`), which is what the salary
regexes capture; anything else is a `ValueError`, modelled as `none`. -/
def parseFloat (s : String) : Option ℚ :=
  match splitOnChar '.' s.data with
  | [a] =>
    if a.isEmpty then none
    else if a.all Char.isDigit then some (digitsToNat a : ℚ) else none
  | [a, b] =>
    if a.isEmpty && b.isEmpty then none
    else if a.all Char.isDigit && b.all Char.isDigit then
      some ((digitsToNat a : ℚ) + (digitsToNat b : ℚ) / ((10 : ℚ) ^ b.length))
    else none
  | _ => none

/-- The `salary_patterns` configuration section. -/
structure SalaryPatterns where
  salary_range_pattern : Option Regex := none
  hourly_rate_pattern : Option Regex := none

/-- The result dict of `_extract_salary_info`: a field is `none` when its
key is absent. -/
structure SalaryData where
  salary_min : Option ℚ := none
  salary_max : Option ℚ := none
  salary_currency : Option String := none
  hourly_rate_min : Option ℚ := none
deriving DecidableEq, Repr

/-- Salary-range stage of `_extract_salary_info`
(job_html_extractor.py:267-279): search the range pattern, parse groups 1
and 2 with thousands separators stripped; a failed parse assigns nothing. -/
def salaryRangeStage (pats : SalaryPatterns) (payText : String) : SalaryData :=
  match pats.salary_range_pattern with
  | none => {}
  | some rp =>
    match pySearchCaps rp payText with
    | none => {}
    | some caps =>
      match capsNum caps 1, capsNum caps 2 with
      | some g1, some g2 =>
        match parseFloat (removeChar ',' g1), parseFloat (removeChar ',' g2) with
        | some mn, some mx =>
          { salary_min := some mn, salary_max := some mx,
            salary_currency := some "USD" }
        | _, _ => {}
      | _, _ => {}

/-- Hourly-rate stage of `_extract_salary_info`
(job_html_extractor.py:281-290): search the hourly pattern and parse group 1
(no separator stripping in the source). -/
def hourlyStage (pats : SalaryPatterns) (payText : String) (base : SalaryData) :
    SalaryData :=
  match pats.hourly_rate_pattern with
  | none => base
  | some hp =>
    match pySearchCaps hp payText with
    | none => base
    | some caps =>
      match capsNum caps 1 with
      | some g1 =>
        match parseFloat g1 with
        | some r => { base with hourly_rate_min := some r }
        | none => base
      | none => base

/-- Embedding of `HTMLJobExtractor._extract_salary_info`
(job_html_extractor.py:259-292). -/
def extract_salary_info (pats : SalaryPatterns) (payText : String) :
    SalaryData :=
  if payText = "" then {}
  else hourlyStage pats payText (salaryRangeStage pats payText)

/-- The dict built by `_parse_location`; `none` models an absent key. -/
structure LocParts where
  location : Option String := none
  city : Option String := none
  state : Option String := none
  country : Option String := none
deriving DecidableEq, Repr

/-- Embedding of `HTMLJobExtractor._parse_location`
(job_html_extractor.py:341-359): comma-split into city/state/(country) by
position. -/
def parse_location (s : String) : LocParts :=
  if s = "" then {}
  else
    let base : LocParts := { location := some s }
    if containsSub "," s then
      let parts := (splitOnChar ',' s.data).map (fun cs => pyStrip cs.asString)
      if 2 ≤ parts.length then
        let base := { base with
                      city := some (parts.getD 0 "")
                      state := some (parts.getD 1 "") }
        if 3 ≤ parts.length then
          { base with country := some (parts.getD 2 "") }
        else base
      else { base with city := some (parts.headD "") }
    else base

/-- Education keywords (job_html_extractor.py:548-567). -/
def educationKeywords : List String :=
  ["degree", "bachelor", "master", "phd", "bs", "ba", "ms", "ma", "mba",
    "education", "university", "college", "graduate", "undergraduate",
    "computer science", "engineering", "equivalent education"]

/-- Embedding of `_extract_education_requirements`
(job_html_extractor.py:544-575). -/
def extract_education_requirements (quals : List String) : List String :=
  quals.filter (fun q =>
    educationKeywords.any (fun k => containsSub k (pyLower q)))

/-- Experience keywords (job_html_extractor.py:583-597). -/
def experienceKeywords : List String :=
  ["experience", "years", "background", "familiar", "knowledge of",
    "understanding of", "skilled", "proficient", "expertise",
    "working with", "development", "programming"]

/-- Education keywords skipped inside `_extract_experience_requirements`
(job_html_extractor.py:603-618). -/
def eduSkipKeywords : List String :=
  ["degree", "bachelor", "master", "phd", "bs", "ba", "ms", "ma",
    "education", "university", "college"]

/-- Embedding of `_extract_experience_requirements`
(job_html_extractor.py:577-627): experience-flavoured minimum
qualifications (minus education ones) plus all preferred qualifications. -/
def extract_experience_requirements (minQ prefQ : List String) :
    List String :=
  (minQ.filter (fun q =>
    !(eduSkipKeywords.any (fun k => containsSub k (pyLower q))) &&
      experienceKeywords.any (fun k => containsSub k (pyLower q)))) ++ prefQ

/-- Python `x or default` on an optional string: `None` and `""` both fall
back to the default. -/
def pyOrS (v : Option String) (dflt : String) : String :=
  match v with
  | some s => if s = "" then dflt else s
  | none => dflt

/-- Error-page marker phrases (job_html_extractor.py:379-384). -/
def errorIndicators : List String :=
  ["Page not found", "Sorry, this role does not exist",
    "is no longer available", "page-not-found-wrapper"]

/-- Selector-extraction results feeding `extract_job_posting`: the values
the various `_extract_with_selector` and `_extract_list_items` calls return
on the page (they depend on BeautifulSoup HTML parsing, abstracted here),
the classifier results (`_determine_job_type` always yields a value, its
fallback being FULL_TIME), the `_extract_skills` result, the configured
source_url extraction (outer `none` = not configured), and the timestamp
`update_scraped_date` writes. -/
structure ExtractorIn where
  jobId : Option String := none
  title : Option String := none
  company : Option String := none
  publishDate : Option String := none
  locationText : Option String := none
  summary : Option String := none
  description : Option String := none
  payBenefit : Option String := none
  team : Option String := none
  department : Option String := none
  applicationUrl : Option String := none
  sourcePlatform : Option String := none
  minQuals : List String := []
  prefQuals : List String := []
  skillsRequired : List String := []
  expLevel : Option ExperienceLevel := none
  jobTypeR : JobType := .full_time
  workArr : Option WorkArrangement := none
  sourceUrlCfg : Option (Option String) := none
  nowTimestamp : String := ""

/-- Embedding of `HTMLJobExtractor.extract_job_posting`
(job_html_extractor.py:361-533): the error-page guard over the page text,
the mandatory job_id/title check (Python `if not job_id or not title`),
then the record assembly with its defaults, the salary dict splat, and the
final `update_scraped_date()` overwrite. -/
def extract_job_posting (pats : SalaryPatterns) (htmlText : String)
    (o : ExtractorIn) (source_url : String) : Option JobPosting :=
  let html_text := pyLower htmlText
  if errorIndicators.any (fun ind => containsSub (pyLower ind) html_text) then
    none
  else
    match o.jobId, o.title with
    | some jid, some t =>
      if jid = "" ∨ t = "" then none
      else
        let location_parts := parse_location (pyOrS o.locationText "")
        let salary := extract_salary_info pats (pyOrS o.payBenefit "")
        let src :=
          if source_url = "" then
            match o.sourceUrlCfg with
            | some v => v.getD ""
            | none => source_url
          else source_url
        some
          { job_id := jid, title := t,
            company := pyOrS o.company "Apple Inc.",
            description := pyOrS o.description "",
            summary := pyOrS o.summary "",
            location :=
              match location_parts.location with
              | some l => l
              | none => pyOrS o.locationText "",
            city := (location_parts.city).getD "",
            state := (location_parts.state).getD "",
            country := (location_parts.country).getD "",
            work_arrangement := o.workArr,
            publish_date := o.publishDate,
            scraped_date := some o.nowTimestamp,
            job_type := some o.jobTypeR,
            experience_level := o.expLevel,
            team := pyOrS o.team "",
            department := pyOrS o.department "",
            required_skills := o.skillsRequired,
            preferred_skills := [],
            minimum_qualifications := o.minQuals,
            preferred_qualifications := o.prefQuals,
            education_requirements := extract_education_requirements o.minQuals,
            experience_requirements :=
              extract_experience_requirements o.minQuals o.prefQuals,
            pay_benefit := pyOrS o.payBenefit "",
            salary_min := salary.salary_min,
            salary_max := salary.salary_max,
            salary_currency := (salary.salary_currency).getD "USD",
            hourly_rate_min := salary.hourly_rate_min,
            application_url := pyOrS o.applicationUrl "",
            source_url := src,
            source_platform := pyOrS o.sourcePlatform "jobs.apple.com" }
    | _, _ => none

/-! ## Theorems -/

theorem dictFind_append (a b : List (String × Option String)) (k : String) :
    dictFind (a ++ b) k =
      match dictFind a k with
      | some v => some v
      | none => dictFind b k := by
  simp only [dictFind, List.find?_append]
  cases List.find? (fun e => e.1 == k) a <;> simp [Option.or]

theorem foldl_stats (cfg : ValidationConfig) :
    ∀ (jobs : List InputJob) (stats : Stats) (seen : List String)
      (kept : List ProcessedJob),
    ((jobs.foldl (processStep cfg) (stats, seen, kept)).1.valid_count +
        (jobs.foldl (processStep cfg) (stats, seen, kept)).1.invalid_count =
      stats.valid_count + stats.invalid_count + jobs.length) ∧
    ((jobs.foldl (processStep cfg) (stats, seen, kept)).1.valid_count +
        kept.length + stats.duplicate_count =
      stats.valid_count +
        (jobs.foldl (processStep cfg) (stats, seen, kept)).2.2.length +
        (jobs.foldl (processStep cfg) (stats, seen, kept)).1.duplicate_count) ∧
    ((jobs.foldl (processStep cfg) (stats, seen, kept)).1.original_count =
      stats.original_count) ∧
    ((jobs.foldl (processStep cfg) (stats, seen, kept)).1.valid_count =
      stats.valid_count + (validJobs cfg jobs).length) := by
  intro jobs
  induction jobs with
  | nil => intro stats seen kept; simp [validJobs]
  | cons j t ih =>
    intro stats seen kept
    simp only [List.foldl_cons, List.length_cons, processStep, validJobs,
      List.filterMap_cons]
    rcases h : validate_url j.url cfg with _ | vres
    · simp only [h, Option.map_none']
      have := ih { stats with invalid_count := stats.invalid_count + 1 } seen kept
      simp only [validJobs] at this
      refine ⟨by omega, by omega, by omega, by omega⟩
    · simp only [h, Option.map_some']
      by_cases hm : jidMem (dictGetD vres "job_id") seen = true
      · simp only [if_pos hm, List.length_cons]
        have := ih
          { stats with
            valid_count := stats.valid_count + 1
            duplicate_count := stats.duplicate_count + 1 }
          seen kept
        simp only [validJobs] at this
        refine ⟨by omega, by omega, by omega, by omega⟩
      · simp only [if_neg hm, List.length_cons]
        have := ih { stats with valid_count := stats.valid_count + 1 }
          (jidInsert (dictGetD vres "job_id") seen) (kept ++ [mkProcessed j vres])
        simp only [validJobs, List.length_append, List.length_cons,
          List.length_nil] at this
        refine ⟨by omega, by omega, by omega, by omega⟩

theorem foldl_kept (cfg : ValidationConfig) :
    ∀ (jobs : List InputJob) (stats : Stats) (seen : List String)
      (kept : List ProcessedJob),
    (jobs.foldl (processStep cfg) (stats, seen, kept)).2.2 =
      kept ++ dedupFirstAux seen (validJobs cfg jobs) := by
  intro jobs
  induction jobs with
  | nil => intro stats seen kept; simp [validJobs, dedupFirstAux]
  | cons j t ih =>
    intro stats seen kept
    simp only [List.foldl_cons, processStep, validJobs, List.filterMap_cons]
    rcases h : validate_url j.url cfg with _ | vres
    · simp only [h, Option.map_none']
      have := ih { stats with invalid_count := stats.invalid_count + 1 } seen kept
      simpa [validJobs] using this
    · simp only [h, Option.map_some']
      have hjid : (mkProcessed j vres).job_id = dictGetD vres "job_id" := rfl
      by_cases hm : jidMem (dictGetD vres "job_id") seen = true
      · simp only [dedupFirstAux, hjid, if_pos hm]
        have := ih { stats with
            valid_count := stats.valid_count + 1
            duplicate_count := stats.duplicate_count + 1 }
          seen kept
        simpa [validJobs] using this
      · simp only [dedupFirstAux, hjid, if_neg hm]
        have := ih { stats with valid_count := stats.valid_count + 1 }
          (jidInsert (dictGetD vres "job_id") seen) (kept ++ [mkProcessed j vres])
        simp only [validJobs] at this
        rw [this, List.append_assoc]
        simp

/-- Claim C1: for every input job list and validation configuration, the
statistics of process_jobs satisfy original = valid + invalid and
valid = final + duplicate. -/
theorem process_jobs_stats_invariant (input : ProcessInput) (cfg : ValidationConfig) :
    (process_jobs input cfg).processing_stats.original_count =
        (process_jobs input cfg).processing_stats.valid_count +
          (process_jobs input cfg).processing_stats.invalid_count ∧
    (process_jobs input cfg).processing_stats.valid_count =
        (process_jobs input cfg).processing_stats.final_count +
          (process_jobs input cfg).processing_stats.duplicate_count := by
  have h := foldl_stats cfg input.jobs
    { original_count := input.jobs.length } [] []
  simp only [List.length_nil] at h
  simp only [process_jobs]
  exact ⟨by omega, by omega⟩

theorem dedupFirstAux_filter (s : String) (hs : s ≠ "") :
    ∀ (t : List ProcessedJob) (seen : List String),
    (dedupFirstAux seen t).filter (fun p => p.job_id == some s) =
      if seen.contains s then []
      else (t.filter (fun p => p.job_id == some s)).take 1 := by
  intro t
  induction t with
  | nil => intro seen; by_cases h : seen.contains s = true <;> simp [dedupFirstAux, h]
  | cons p t ih =>
    intro seen
    rcases hid : p.job_id with _ | u
    · have hmn : ¬ (jidMem p.job_id seen = true) := by rw [hid]; simp [jidMem]
      have hins : jidInsert p.job_id seen = seen := by rw [hid]; rfl
      have hne : (p.job_id == some s) = false := by simp [hid]
      simp only [dedupFirstAux, hins, if_neg hmn]
      rw [List.filter_cons_of_neg (by simp [hne]), List.filter_cons_of_neg (by simp [hne])]
      exact ih seen
    · have hmm : jidMem p.job_id seen = seen.contains u := by rw [hid]; rfl
      by_cases hu : seen.contains u = true
      · have hm : jidMem p.job_id seen = true := by rw [hmm]; exact hu
        simp only [dedupFirstAux, if_pos hm]
        rw [ih seen]
        by_cases hus : u = s
        · subst hus
          simp only [if_pos hu]
        · have hne : (p.job_id == some s) = false := by simp [hid, hus]
          rw [List.filter_cons_of_neg (by simp [hne])]
      · have hmn : ¬ (jidMem p.job_id seen = true) := by rw [hmm]; exact hu
        simp only [dedupFirstAux, if_neg hmn]
        by_cases hus : u = s
        · subst hus
          have hins : jidInsert p.job_id seen = u :: seen := by
            rw [hid]; simp only [jidInsert, if_pos hs]
          have hyes : (p.job_id == some u) = true := by simp [hid]
          rw [hins, List.filter_cons_of_pos (by simp [hyes]), ih (u :: seen)]
          rw [List.filter_cons_of_pos (by simp [hyes])]
          have hcons : (u :: seen).contains u = true := by simp
          rw [if_pos hcons, if_neg hu]
          simp
        · have hne : (p.job_id == some s) = false := by simp [hid, hus]
          rw [List.filter_cons_of_neg (by simp [hne]),
            List.filter_cons_of_neg (by simp [hne]), ih (jidInsert p.job_id seen)]
          have hsame : (jidInsert p.job_id seen).contains s = seen.contains s := by
            rw [hid]
            by_cases hue : u = ""
            · have hnn : ¬ (u ≠ "") := fun h => h hue
              simp only [jidInsert, if_neg hnn]
            · simp only [jidInsert, if_pos hue]
              have hsu : (s == u) = false :=
                beq_eq_false_iff_ne.2 (fun h => hus h.symm)
              simp only [List.contains_cons, hsu, Bool.false_or]
          rw [hsame]

/-- Concrete batch for the C2 counterexample: two distinct, valid URLs whose
extracted job id is the empty string (the valid pattern has no `job_id`
group, so the extracted-fields pass defaults it to `""`). -/
def c2Input : ProcessInput := { jobs := [{ url := "a" }, { url := "b" }] }

/-- Validation configuration for the C2 counterexample. -/
def c2Cfg : ValidationConfig := ⟨[], some .eps, ["job_id"]⟩

/-- Claim C2 as stated is false: in this batch both jobs validate with
extracted job id `""`; both are kept (the same job id appears twice in the
output) and the second occurrence is not counted as a duplicate, because
`process_jobs` only adds truthy job ids to the seen set. -/
theorem process_jobs_dedup_counterexample :
    ¬ ((process_jobs c2Input c2Cfg).jobs.map (fun p => p.job_id)).Nodup ∧
    (process_jobs c2Input c2Cfg).processing_stats.duplicate_count = 0 := by
  constructor
  · have h : (process_jobs c2Input c2Cfg).jobs.map (fun p => p.job_id) =
        [some "", some ""] := by decide
    rw [h]
    decide
  · decide

/-- Claim C2 amended: deduplication keys on the extracted job id for
non-empty ids only.  For every non-empty id `s`, the output jobs carrying id
`s` are exactly the first valid occurrence (first wins, later ones dropped),
and every dropped valid job is counted in `duplicate_count`.  Jobs whose
extracted job id is empty or missing bypass deduplication entirely. -/
theorem process_jobs_dedup_first_wins (input : ProcessInput)
    (cfg : ValidationConfig) (s : String) (hs : s ≠ "") :
    (process_jobs input cfg).jobs.filter (fun p => p.job_id == some s) =
      ((validJobs cfg input.jobs).filter (fun p => p.job_id == some s)).take 1 ∧
    (process_jobs input cfg).processing_stats.duplicate_count +
        (process_jobs input cfg).jobs.length =
      (validJobs cfg input.jobs).length := by
  have hk := foldl_kept cfg input.jobs { original_count := input.jobs.length } [] []
  constructor
  · simp only [process_jobs]
    rw [hk, List.nil_append, dedupFirstAux_filter s hs]
    simp
  · have h := foldl_stats cfg input.jobs { original_count := input.jobs.length } [] []
    simp only [List.length_nil] at h
    simp only [process_jobs]
    omega

/-- Concrete batch for the C2 witness: job id `1` occurs twice. -/
def c2wInput : ProcessInput :=
  { jobs := [{ url := "u1" }, { url := "u1x" }, { url := "u2" }] }

/-- Valid pattern `u(?P<job_id>\d+)` for the C2 witness. -/
def c2wCfg : ValidationConfig :=
  ⟨[], some (.cat (Regex.strLit "u") (.group 1 (some "job_id") Regex.digitc.rplus)), []⟩

theorem process_jobs_dedup_first_wins_witness :
    ("1" : String) ≠ "" ∧
    ((process_jobs c2wInput c2wCfg).jobs.filter (fun p => p.job_id == some "1") =
      ((validJobs c2wCfg c2wInput.jobs).filter
        (fun p => p.job_id == some "1")).take 1 ∧
    (process_jobs c2wInput c2wCfg).processing_stats.duplicate_count +
        (process_jobs c2wInput c2wCfg).jobs.length =
      (validJobs c2wCfg c2wInput.jobs).length) :=
  ⟨by decide, process_jobs_dedup_first_wins c2wInput c2wCfg "1" (by decide)⟩

theorem foldl_default_preserve (fields : List String) :
    ∀ (acc : List (String × Option String)) (f : String) (v : Option String),
    dictFind acc f = some v →
    dictFind (fields.foldl
      (fun a g => if (dictFind a g).isSome then a else a ++ [(g, some "")]) acc) f
      = some v := by
  induction fields with
  | nil => intro acc f v h; simpa using h
  | cons g t ih =>
    intro acc f v h
    simp only [List.foldl_cons]
    by_cases hg : (dictFind acc g).isSome = true
    · rw [if_pos hg]; exact ih acc f v h
    · rw [if_neg hg]
      apply ih
      rw [dictFind_append, h]

theorem foldl_default_sets (fields : List String) :
    ∀ (acc : List (String × Option String)) (f : String), f ∈ fields →
    dictFind acc f = none →
    dictFind (fields.foldl
      (fun a g => if (dictFind a g).isSome then a else a ++ [(g, some "")]) acc) f
      = some (some "") := by
  induction fields with
  | nil => intro acc f hf; exact absurd hf (by simp)
  | cons g t ih =>
    intro acc f hf hn
    simp only [List.foldl_cons]
    by_cases hfg : g = f
    · subst hfg
      rw [if_neg (by simp [hn])]
      apply foldl_default_preserve
      rw [dictFind_append, hn]
      simp [dictFind]
    · have hf2 : f ∈ t := by
        rcases List.mem_cons.1 hf with h | h
        · exact absurd h.symm hfg
        · exact h
      by_cases hg : (dictFind acc g).isSome = true
      · rw [if_pos hg]; exact ih acc f hf2 hn
      · rw [if_neg hg]
        apply ih _ _ hf2
        rw [dictFind_append, hn]
        simp [dictFind, hfg]

theorem dictFind_map_names (g : String → Option String) (f : String) :
    ∀ (ns : List String), f ∉ ns →
    dictFind (ns.map (fun n => (n, g n))) f = none := by
  intro ns
  induction ns with
  | nil => intro _; simp [dictFind]
  | cons n t ih =>
    intro hf
    have hn : ¬ (n = f) := fun h => hf (h ▸ List.Mem.head t)
    have ht : f ∉ t := fun h => hf (List.Mem.tail n h)
    simp only [List.map_cons, dictFind, List.find?]
    have : (((n, g n) : String × Option String).1 == f) = false := by
      simpa using hn
    rw [this]
    exact ih ht

theorem dictFind_cons (e : String × Option String)
    (t : List (String × Option String)) (f : String) :
    dictFind (e :: t) f =
      if (e.1 == f) = true then some e.2 else dictFind t f := by
  rcases hef : (e.1 == f) with _ | _ <;> simp [dictFind, List.find?, hef]

theorem dictFind_dictSet_none (d : List (String × Option String))
    (k f : String) (v : Option String) (h : dictFind d f = none) :
    dictFind (dictSet d k v) f = none := by
  induction d with
  | nil => simp [dictSet, dictFind]
  | cons e t ih =>
    have hkey : ((if e.1 == k then (e.1, v) else e).1) = e.1 := by
      by_cases hik : (e.1 == k) = true <;> simp [hik]
    rw [dictFind_cons] at h
    simp only [dictSet, List.map_cons]
    rw [dictFind_cons, hkey]
    by_cases hef : (e.1 == f) = true
    · rw [if_pos hef] at h
      exact absurd h (by simp)
    · rw [if_neg hef] at h
      rw [if_neg hef]
      exact ih h

/-- Claim C5 amended: validate_url rejects every URL matching a configured
invalid pattern; it accepts only when the configured valid pattern matches a
prefix of the URL anchored at its start (Python `re.match`) — not necessarily
the whole URL — and on acceptance every configured extracted field that is
not among the pattern's named groups is set to the empty string rather than
causing rejection. -/
theorem validate_url_spec (url : String) (cfg : ValidationConfig) :
    ((∃ p ∈ cfg.invalid_patterns, pySearchB p url = true) →
      validate_url url cfg = none) ∧
    (∀ d, validate_url url cfg = some d →
      ∃ vp, cfg.valid_pattern = some vp ∧ (pyMatch vp url).isSome = true ∧
        ∀ f ∈ cfg.extracted_fields, f ∉ vp.names →
          dictFind d f = some (some "")) := by
  constructor
  · rintro ⟨p, hp, hs⟩
    rw [validate_url]
    by_cases hu : url = ""
    · rw [if_pos hu]
    · have hc : cfg.invalid_patterns.any (fun q => pySearchB q url) = true :=
        List.any_eq_true.2 ⟨p, hp, hs⟩
      rw [if_neg hu, if_pos hc]
  · intro d hd
    rw [validate_url] at hd
    by_cases hu : url = ""
    · rw [if_pos hu] at hd; exact absurd hd (by simp)
    · rw [if_neg hu] at hd
      by_cases hi : cfg.invalid_patterns.any (fun q => pySearchB q url) = true
      · rw [if_pos hi] at hd; exact absurd hd (by simp)
      · rw [if_neg hi] at hd
        rcases hvp : cfg.valid_pattern with _ | vp
        · simp only [hvp] at hd
          exact absurd hd (by simp)
        · simp only [hvp] at hd
          rcases hm : pyMatch vp url with _ | mr
          · simp only [hm] at hd
            exact absurd hd (by simp)
          · obtain ⟨rest, caps⟩ := mr
            simp only [hm] at hd
            refine ⟨vp, rfl, by rw [hm]; rfl, ?_⟩
            intro f hf hfn
            have hd2 := hd
            simp only [Option.some_inj] at hd2
            rw [← hd2]
            apply foldl_default_sets _ _ _ hf
            have hgd : dictFind (groupdictOf vp caps) f = none := by
              simpa [groupdictOf] using
                dictFind_map_names (capsName caps) f vp.names hfn
            rcases hjt : dictFind (groupdictOf vp caps) "job_title" with _ | w
            · simp only [hjt, hgd]
            · rcases w with _ | t
              · simp only [hjt, hgd]
              · by_cases hte : t ≠ ""
                · simp only [hjt, if_pos hte]
                  exact dictFind_dictSet_none _ _ _ _ hgd
                · simp only [hjt, if_neg hte, hgd]

/-- Claim C5 as stated is false on the "full match" requirement: with valid
pattern `a`, the URL `"ab"` is accepted even though the pattern does not
match the full URL — Python `re.match` only anchors at the start. -/
theorem validate_url_counterexample :
    validate_url "ab" ⟨[], some (Regex.strLit "a"), []⟩ ≠ none ∧
    pyFullMatch (Regex.strLit "a") "ab" = false := by
  constructor
  · decide
  · decide

/-- Invalid-pattern configuration for the C5 witness. -/
def c5wBad : ValidationConfig := ⟨[Regex.strLit "apply"], some .eps, []⟩

/-- Accepting configuration for the C5 witness (`u(?P<job_id>\d+)`, extracted
field `team` not among the group names). -/
def c5wGood : ValidationConfig :=
  ⟨[], some (.cat (Regex.strLit "u") (.group 1 (some "job_id") Regex.digitc.rplus)),
    ["team"]⟩

/-- Result of `validate_url "u12" c5wGood`. -/
def c5wRes : List (String × Option String) := [("job_id", some "12"), ("team", some "")]

theorem validate_url_spec_witness :
    validate_url "https://x/apply/1" c5wBad = none ∧
    (∃ vp, c5wGood.valid_pattern = some vp ∧ (pyMatch vp "u12").isSome = true ∧
      ∀ f ∈ c5wGood.extracted_fields, f ∉ vp.names →
        dictFind c5wRes f = some (some "")) :=
  ⟨(validate_url_spec "https://x/apply/1" c5wBad).1
      ⟨Regex.strLit "apply", List.Mem.head _, by decide⟩,
    (validate_url_spec "u12" c5wGood).2 c5wRes (by decide)⟩

theorem downloadAux_allRetryable (outcomes : Nat → FetchOutcome) (mr ts : Nat) :
    ∀ (fuel attempt : Nat) (sleeps : List Nat) (exc : Option String),
    fuel + attempt = mr + 1 → attempt ≤ mr →
    (∀ i, attempt ≤ i → i ≤ mr → isRetryableFailure (outcomes i) = true) →
    downloadAux outcomes mr ts fuel attempt sleeps exc =
      ⟨none, failureMsg ts (outcomes mr),
        sleeps.reverse ++ (List.range' attempt (mr - attempt)).map (fun j => 2 ^ j),
        mr + 1⟩ := by
  intro fuel
  induction fuel with
  | zero => intro attempt sleeps exc hfa ham _; omega
  | succ f ih =>
    intro attempt sleeps exc hfa ham hret
    have hra := hret attempt (le_refl _) ham
    cases hout : outcomes attempt with
    | success c => rw [hout] at hra; simp [isRetryableFailure] at hra
    | timeout =>
      simp only [downloadAux, hout]
      by_cases hlt : attempt < mr
      · rw [if_pos hlt,
          ih (attempt + 1) (2 ^ attempt :: sleeps) _ (by omega) (by omega)
            (fun i hi1 hi2 => hret i (by omega) hi2)]
        have hk2 : mr - (attempt + 1) = mr - attempt - 1 := by omega
        have hk : mr - attempt = (mr - attempt - 1) + 1 := by omega
        rw [hk2, hk, List.range'_succ, List.map_cons, List.reverse_cons,
          List.append_assoc, List.singleton_append]
        simp
      · have hem : attempt = mr := by omega
        have hf0 : f = 0 := by omega
        rw [if_neg hlt, hf0]
        subst hem
        simp [downloadAux, hout, failureMsg, Nat.sub_self]
    | httpError code reason =>
      rw [hout] at hra
      simp only [isRetryableFailure, Bool.and_eq_true, decide_eq_true_eq] at hra
      simp only [downloadAux, hout]
      by_cases hlt : attempt < mr
      · rw [if_pos ⟨hra.1, hlt⟩,
          ih (attempt + 1) (2 ^ attempt :: sleeps) _ (by omega) (by omega)
            (fun i hi1 hi2 => hret i (by omega) hi2)]
        have hk2 : mr - (attempt + 1) = mr - attempt - 1 := by omega
        have hk : mr - attempt = (mr - attempt - 1) + 1 := by omega
        rw [hk2, hk, List.range'_succ, List.map_cons, List.reverse_cons,
          List.append_assoc, List.singleton_append]
        simp
      · have hem : attempt = mr := by omega
        rw [if_neg (fun hc => hlt hc.2)]
        subst hem
        simp [failureMsg, hout, Nat.sub_self]
    | urlError reason =>
      simp only [downloadAux, hout]
      by_cases hlt : attempt < mr
      · rw [if_pos hlt,
          ih (attempt + 1) (2 ^ attempt :: sleeps) _ (by omega) (by omega)
            (fun i hi1 hi2 => hret i (by omega) hi2)]
        have hk2 : mr - (attempt + 1) = mr - attempt - 1 := by omega
        have hk : mr - attempt = (mr - attempt - 1) + 1 := by omega
        rw [hk2, hk, List.range'_succ, List.map_cons, List.reverse_cons,
          List.append_assoc, List.singleton_append]
        simp
      · have hem : attempt = mr := by omega
        rw [if_neg hlt]
        subst hem
        simp [failureMsg, hout, Nat.sub_self]
    | otherError m => rw [hout] at hra; simp [isRetryableFailure] at hra

/-- Claim C3: when every attempt fails with a retryable failure (timeout,
connection error, or HTTP 5xx), download_html makes exactly max_retries + 1
attempts, sleeps 1, 2, 4, …, 2^(max_retries-1) seconds between successive
attempts, and its terminal failure carries the last failure's reason. -/
theorem download_html_retry_exhaustion (outcomes : Nat → FetchOutcome)
    (mr ts : Nat)
    (h : ∀ i, i ≤ mr → isRetryableFailure (outcomes i) = true) :
    download_html outcomes mr ts =
      ⟨none, failureMsg ts (outcomes mr),
        (List.range mr).map (fun j => 2 ^ j), mr + 1⟩ := by
  have hh := downloadAux_allRetryable outcomes mr ts (mr + 1) 0 [] none
    (by omega) (by omega) (fun i _ hi => h i hi)
  rw [download_html, hh]
  simp [List.range_eq_range']

theorem download_html_retry_exhaustion_witness :
    (∀ i, i ≤ 2 → isRetryableFailure ((fun _ => FetchOutcome.timeout) i) = true) ∧
    download_html (fun _ => FetchOutcome.timeout) 2 30 =
      ⟨none, some (timeoutMsg 30), [1, 2], 3⟩ :=
  ⟨fun _ _ => rfl, by
    rw [download_html_retry_exhaustion (fun _ => FetchOutcome.timeout) 2 30
      (fun _ _ => rfl)]
    decide⟩

theorem downloadAux_client_reject (outcomes : Nat → FetchOutcome) (mr ts : Nat)
    (i c : Nat) (r : String)
    (hout : outcomes i = .httpError c r) (h4 : 400 ≤ c) (h5 : c < 500) :
    ∀ (fuel attempt : Nat) (sleeps : List Nat) (exc : Option String),
    fuel + attempt = mr + 1 → attempt ≤ i → i ≤ mr →
    (∀ j, attempt ≤ j → j < i → isRetryableFailure (outcomes j) = true) →
    downloadAux outcomes mr ts fuel attempt sleeps exc =
      ⟨none, some (httpMsg c r),
        sleeps.reverse ++ (List.range' attempt (i - attempt)).map (fun j => 2 ^ j),
        i + 1⟩ := by
  intro fuel
  induction fuel with
  | zero => intro attempt sleeps exc hfa hai him _; omega
  | succ f ih =>
    intro attempt sleeps exc hfa hai him hret
    by_cases hae : attempt = i
    · subst hae
      simp only [downloadAux, hout]
      rw [if_neg (fun hc : 500 ≤ c ∧ attempt < mr => by omega)]
      simp [Nat.sub_self]
    · have haii : attempt < i := by omega
      have hra := hret attempt (le_refl _) haii
      have hlt : attempt < mr := by omega
      cases houta : outcomes attempt with
      | success c2 => rw [houta] at hra; simp [isRetryableFailure] at hra
      | timeout =>
        simp only [downloadAux, houta]
        rw [if_pos hlt,
          ih (attempt + 1) (2 ^ attempt :: sleeps) _ (by omega) (by omega) him
            (fun j hj1 hj2 => hret j (by omega) hj2)]
        have hk2 : i - (attempt + 1) = i - attempt - 1 := by omega
        have hk : i - attempt = (i - attempt - 1) + 1 := by omega
        rw [hk2, hk, List.range'_succ, List.map_cons, List.reverse_cons,
          List.append_assoc, List.singleton_append]
        simp
      | httpError c2 r2 =>
        rw [houta] at hra
        simp only [isRetryableFailure, Bool.and_eq_true, decide_eq_true_eq] at hra
        simp only [downloadAux, houta]
        rw [if_pos ⟨hra.1, hlt⟩,
          ih (attempt + 1) (2 ^ attempt :: sleeps) _ (by omega) (by omega) him
            (fun j hj1 hj2 => hret j (by omega) hj2)]
        have hk2 : i - (attempt + 1) = i - attempt - 1 := by omega
        have hk : i - attempt = (i - attempt - 1) + 1 := by omega
        rw [hk2, hk, List.range'_succ, List.map_cons, List.reverse_cons,
          List.append_assoc, List.singleton_append]
        simp
      | urlError r2 =>
        simp only [downloadAux, houta]
        rw [if_pos hlt,
          ih (attempt + 1) (2 ^ attempt :: sleeps) _ (by omega) (by omega) him
            (fun j hj1 hj2 => hret j (by omega) hj2)]
        have hk2 : i - (attempt + 1) = i - attempt - 1 := by omega
        have hk : i - attempt = (i - attempt - 1) + 1 := by omega
        rw [hk2, hk, List.range'_succ, List.map_cons, List.reverse_cons,
          List.append_assoc, List.singleton_append]
        simp
      | otherError m2 => rw [houta] at hra; simp [isRetryableFailure] at hra

theorem processUrlsAux_counts_index (env : DLEnv) (mr ts : Nat) :
    ∀ (jobs : List DLJob) (n1 i1 n2 i2 : Nat),
    (processUrlsAux env mr ts n1 i1 jobs).2 =
      (processUrlsAux env mr ts n2 i2 jobs).2 := by
  intro jobs
  induction jobs with
  | nil => intro n1 i1 n2 i2; rfl
  | cons job rest ih =>
    intro n1 i1 n2 i2
    have h := ih n1 (i1 + 1) n2 (i2 + 1)
    rcases hju : job.url with _ | u
    · simp only [processUrlsAux, hju, h]
    · by_cases hex : env.fileExists (sanitize_filename u job.job_id) = true
      · simp only [processUrlsAux, hju, if_pos hex, h]
      · simp only [processUrlsAux, hju, if_neg hex, h]

/-- Claim C4: an attempt failing with an HTTP status in the 4xx range stops
download_html at once — no further attempts, no backoff sleep, immediate
failure for that URL — and the batch goes on with the next URLs: the job
counts as one more failure and the rest of the batch behaves as a batch of
its own. -/
theorem download_html_4xx_immediate (outcomes : Nat → FetchOutcome)
    (mr ts i c : Nat) (r : String)
    (hret : ∀ j, j < i → isRetryableFailure (outcomes j) = true)
    (him : i ≤ mr) (hout : outcomes i = .httpError c r)
    (h4 : 400 ≤ c) (h5 : c < 500) :
    download_html outcomes mr ts =
      ⟨none, some (httpMsg c r), (List.range i).map (fun j => 2 ^ j), i + 1⟩ ∧
    ∀ (env : DLEnv) (j : DLJob) (u : String) (rest : List DLJob),
      j.url = some u → env.fileExists (sanitize_filename u j.job_id) = false →
      env.outcomes u = outcomes →
      (processUrls env mr ts (j :: rest)).2.2 =
          1 + (processUrls env mr ts rest).2.2 ∧
      (processUrls env mr ts (j :: rest)).2.1 =
          (processUrls env mr ts rest).2.1 := by
  have hdl : download_html outcomes mr ts =
      ⟨none, some (httpMsg c r), (List.range i).map (fun j => 2 ^ j), i + 1⟩ := by
    have hh := downloadAux_client_reject outcomes mr ts i c r hout h4 h5
      (mr + 1) 0 [] none (by omega) (by omega) him (fun j _ hj => hret j hj)
    rw [download_html, hh]
    simp [List.range_eq_range']
  refine ⟨hdl, ?_⟩
  intro env j u rest hju hex henv
  have hexn : ¬ (env.fileExists (sanitize_filename u j.job_id) = true) := by
    simp [hex]
  simp only [processUrls, processUrlsAux, hju, List.length_cons, if_neg hexn,
    henv, hdl]
  have hidx := processUrlsAux_counts_index env mr ts rest
    (rest.length + 1) 2 rest.length 1
  constructor
  · simp only [hidx]
    try omega
  · simp only [hidx]
    try omega

/-- Outcome family for the C4 witness: first attempt is rejected with 404. -/
def c4Outcomes : Nat → FetchOutcome := fun n =>
  if n = 0 then .httpError 404 "Not Found" else .timeout

theorem download_html_4xx_immediate_witness :
    download_html c4Outcomes 3 30 =
      ⟨none, some (httpMsg 404 "Not Found"),
        (List.range 0).map (fun j => 2 ^ j), 0 + 1⟩ ∧
    ∀ (env : DLEnv) (j : DLJob) (u : String) (rest : List DLJob),
      j.url = some u → env.fileExists (sanitize_filename u j.job_id) = false →
      env.outcomes u = c4Outcomes →
      (processUrls env 3 30 (j :: rest)).2.2 =
          1 + (processUrls env 3 30 rest).2.2 ∧
      (processUrls env 3 30 (j :: rest)).2.1 =
          (processUrls env 3 30 rest).2.1 :=
  download_html_4xx_immediate c4Outcomes 3 30 0 404 "Not Found"
    (fun j hj => absurd hj (Nat.not_lt_zero j)) (by omega) rfl (by omega) (by omega)

theorem countNetReq_append (a b : List DLEvent) :
    countNetReq (a ++ b) = countNetReq a + countNetReq b := by
  simp [countNetReq, List.filter_append]

theorem countSleep_append (a b : List DLEvent) :
    countSleep (a ++ b) = countSleep a + countSleep b := by
  simp [countSleep, List.filter_append]

theorem dropLast_cons_filter_neg {p : DLJob → Bool} {job : DLJob}
    (hp : p job = false) (rest : List DLJob) :
    ((job :: rest).dropLast.filter p).length =
      (rest.dropLast.filter p).length := by
  cases rest with
  | nil => rfl
  | cons r rs =>
    rw [List.dropLast_cons₂, List.filter_cons_of_neg (by simp [hp])]

theorem countNetReq_cons (e : DLEvent) (l : List DLEvent) :
    countNetReq (e :: l) =
      (if isNetReq e = true then 1 else 0) + countNetReq l := by
  by_cases h : isNetReq e = true <;>
    simp [countNetReq, List.filter_cons, h, Nat.add_comm]

theorem countSleep_cons (e : DLEvent) (l : List DLEvent) :
    countSleep (e :: l) =
      (if (e == DLEvent.politeSleep) = true then 1 else 0) + countSleep l := by
  by_cases h : (e == DLEvent.politeSleep) = true <;>
    simp [countSleep, List.filter_cons, h, Nat.add_comm]

theorem countNetReq_sleepEv (i n : Nat) :
    countNetReq (if i < n then [DLEvent.politeSleep] else []) = 0 := by
  by_cases h : i < n
  · rw [if_pos h]; rfl
  · rw [if_neg h]; rfl

theorem countSleep_sleepEv (i n : Nat) :
    countSleep (if i < n then [DLEvent.politeSleep] else []) =
      if i < n then 1 else 0 := by
  by_cases h : i < n
  · simp only [if_pos h]; rfl
  · simp only [if_neg h]; rfl

theorem processUrlsAux_spec (env : DLEnv) (mr ts : Nat) :
    ∀ (jobs : List DLJob) (n i : Nat), i + jobs.length = n + 1 →
    countNetReq (processUrlsAux env mr ts n i jobs).1 =
      (jobs.filter (dlAttempted env)).length ∧
    (processUrlsAux env mr ts n i jobs).2.1 =
      (jobs.filter (dlCacheHit env)).length +
        (jobs.filter (dlSavedOk env mr ts)).length ∧
    countSleep (processUrlsAux env mr ts n i jobs).1 =
      (jobs.dropLast.filter (dlAttempted env)).length := by
  intro jobs
  induction jobs with
  | nil => intro n i _; simp [processUrlsAux, countNetReq, countSleep]
  | cons job rest ih =>
    intro n i hinv
    obtain ⟨ih1, ih2, ih3⟩ := ih n (i + 1) (by simp at hinv ⊢; omega)
    rcases hju : job.url with _ | u
    · have hatt : dlAttempted env job = false := by simp [dlAttempted, hju]
      have hch : dlCacheHit env job = false := by simp [dlCacheHit, hju]
      have hso : dlSavedOk env mr ts job = false := by simp [dlSavedOk, hju]
      simp only [processUrlsAux, hju]
      refine ⟨?_, ?_, ?_⟩
      · rw [List.filter_cons_of_neg (by simp [hatt]), countNetReq_cons]
        simp [ih1, isNetReq]
      · rw [List.filter_cons_of_neg (by simp [hch]),
          List.filter_cons_of_neg (by simp [hso])]
        exact ih2
      · rw [dropLast_cons_filter_neg hatt, countSleep_cons]
        simp [ih3]
    · by_cases hex : env.fileExists (sanitize_filename u job.job_id) = true
      · have hatt : dlAttempted env job = false := by
          simp [dlAttempted, hju, hex]
        have hch : dlCacheHit env job = true := by simp [dlCacheHit, hju, hex]
        have hso : dlSavedOk env mr ts job = false := by
          simp [dlSavedOk, hju, hex]
        simp only [processUrlsAux, hju, if_pos hex]
        refine ⟨?_, ?_, ?_⟩
        · rw [List.filter_cons_of_neg (by simp [hatt]), countNetReq_cons]
          simp [ih1, isNetReq]
        · rw [List.filter_cons_of_pos (by simp [hch]),
            List.filter_cons_of_neg (by simp [hso])]
          simp only [List.length_cons, ih2]
          omega
        · rw [dropLast_cons_filter_neg hatt, countSleep_cons]
          simp [ih3]
      · have hatt : dlAttempted env job = true := by
          simp only [dlAttempted, hju]
          simpa using hex
        have hch : dlCacheHit env job = false := by
          simp only [dlCacheHit, hju]
          simpa using hex
        simp only [processUrlsAux, hju, if_neg hex]
        rcases hdc : (download_html (env.outcomes u) mr ts).content with _ | cont
        · have hso : dlSavedOk env mr ts job = false := by
            simp [dlSavedOk, hju, hdc]
          simp only [hdc]
          refine ⟨?_, ?_, ?_⟩
          · rw [countNetReq_append, countNetReq_append, countNetReq_sleepEv,
              List.filter_cons_of_pos (by simp [hatt])]
            have he1 : countNetReq [DLEvent.netRequest u] = 1 := rfl
            rw [he1, ih1]
            simp only [List.length_cons]
            omega
          · rw [List.filter_cons_of_neg (by simp [hch]),
              List.filter_cons_of_neg (by simp [hso])]
            simpa using ih2
          · rw [countSleep_append, countSleep_append, countSleep_sleepEv]
            have hs1 : countSleep [DLEvent.netRequest u] = 0 := rfl
            rw [hs1, ih3]
            cases rest with
            | nil =>
              have hni : ¬ (i < n) := by simp at hinv; omega
              rw [if_neg hni]
              rfl
            | cons r rs =>
              have hyi : i < n := by simp at hinv; omega
              rw [if_pos hyi, List.dropLast_cons₂,
                List.filter_cons_of_pos (by simp [hatt])]
              simp only [List.length_cons]
              omega
        · by_cases hw : env.writeOk (sanitize_filename u job.job_id) = true
          · have hso : dlSavedOk env mr ts job = true := by
              simp only [dlSavedOk, hju, hdc, hw, Option.isSome_some,
                Bool.and_true, Bool.true_and, Bool.and_eq_true, Bool.not_eq_true]
              simpa using hex
            simp only [hdc, if_pos hw]
            refine ⟨?_, ?_, ?_⟩
            · rw [countNetReq_append, countNetReq_append, countNetReq_sleepEv,
                List.filter_cons_of_pos (by simp [hatt])]
              have he1 : countNetReq [DLEvent.netRequest u,
                  DLEvent.saved (sanitize_filename u job.job_id)] = 1 := rfl
              rw [he1, ih1]
              simp only [List.length_cons]
              omega
            · rw [List.filter_cons_of_neg (by simp [hch]),
                List.filter_cons_of_pos (by simp [hso])]
              simp only [List.length_cons, ih2]
              omega
            · rw [countSleep_append, countSleep_append, countSleep_sleepEv]
              have hs1 : countSleep [DLEvent.netRequest u,
                  DLEvent.saved (sanitize_filename u job.job_id)] = 0 := rfl
              rw [hs1, ih3]
              cases rest with
              | nil =>
                have hni : ¬ (i < n) := by simp at hinv; omega
                rw [if_neg hni]
                rfl
              | cons r rs =>
                have hyi : i < n := by simp at hinv; omega
                rw [if_pos hyi, List.dropLast_cons₂,
                  List.filter_cons_of_pos (by simp [hatt])]
                simp only [List.length_cons]
                omega
          · have hso : dlSavedOk env mr ts job = false := by
              simp [dlSavedOk, hju, hw]
            simp only [hdc, if_neg hw]
            refine ⟨?_, ?_, ?_⟩
            · rw [countNetReq_append, countNetReq_append, countNetReq_sleepEv,
                List.filter_cons_of_pos (by simp [hatt])]
              have he1 : countNetReq [DLEvent.netRequest u,
                  DLEvent.saveFailed (sanitize_filename u job.job_id)] = 1 := rfl
              rw [he1, ih1]
              simp only [List.length_cons]
              omega
            · rw [List.filter_cons_of_neg (by simp [hch]),
                List.filter_cons_of_neg (by simp [hso])]
              simpa using ih2
            · rw [countSleep_append, countSleep_append, countSleep_sleepEv]
              have hs1 : countSleep [DLEvent.netRequest u,
                  DLEvent.saveFailed (sanitize_filename u job.job_id)] = 0 := rfl
              rw [hs1, ih3]
              cases rest with
              | nil =>
                have hni : ¬ (i < n) := by simp at hinv; omega
                rw [if_neg hni]
                rfl
              | cons r rs =>
                have hyi : i < n := by simp at hinv; omega
                rw [if_pos hyi, List.dropLast_cons₂,
                  List.filter_cons_of_pos (by simp [hatt])]
                simp only [List.length_cons]
                omega

/-- Claim C8 amended: a job whose destination file exists triggers no network
request and is counted as successful; the politeness delay is applied exactly
after each download-attempted job that is not the last job of the batch — in
particular never after a cache hit or a missing-url job, but it can fall
between a download and a following cache hit. -/
theorem processUrls_batch_spec (env : DLEnv) (mr ts : Nat) (jobs : List DLJob) :
    countNetReq (processUrls env mr ts jobs).1 =
      (jobs.filter (dlAttempted env)).length ∧
    (processUrls env mr ts jobs).2.1 =
      (jobs.filter (dlCacheHit env)).length +
        (jobs.filter (dlSavedOk env mr ts)).length ∧
    countSleep (processUrls env mr ts jobs).1 =
      (jobs.dropLast.filter (dlAttempted env)).length :=
  processUrlsAux_spec env mr ts jobs jobs.length 1 (by omega)

/-- Fresh job for the C8 counterexample. -/
def c8JobA : DLJob := { url := some "http://h/a", job_id := "1" }

/-- Cached job for the C8 counterexample. -/
def c8JobB : DLJob := { url := some "http://h/b", job_id := "2" }

/-- Environment for the C8 counterexample: only job B's file exists, every
fetch succeeds. -/
def c8Env : DLEnv where
  fileExists := fun f => f == sanitize_filename "http://h/b" "2"
  outcomes := fun _ _ => .success "x"
  writeOk := fun _ => true

/-- Claim C8 as stated is false on the delay placement: in a batch of a fresh
download followed by a cache hit, the politeness sleep after the download
immediately precedes the cache hit, so the delay is not only between
successive distinct downloads. -/
theorem processUrls_sleep_counterexample :
    (processUrls c8Env 3 30 [c8JobA, c8JobB]).1 =
      [DLEvent.netRequest "http://h/a", DLEvent.saved "1__a.html",
        DLEvent.politeSleep, DLEvent.skipExists "2__b.html"] ∧
    claimSleepOnlyBetweenDownloads (processUrls c8Env 3 30 [c8JobA, c8JobB]).1 =
      false := by
  exact ⟨by decide, by decide⟩

/-- Claim C7 as stated is false: with pagination enabled, an always-available
next-page check and every page yielding zero stubs, the consecutive-empty-page
counter reaches its threshold of 5 after page 5, yet the spider keeps
requesting pages (6, 7, 8, 9, …): reaching the threshold only logs an error
(url_fetcher.py:150-153) and never stops the crawl. -/
theorem crawl_empty_pages_counterexample :
    (crawlFrom true (fun _ => true) (fun _ => []) 5 initSpider 1 []).1.emptyPagesCount =
      maxEmptyPages ∧
    (crawlFrom true (fun _ => true) (fun _ => []) 8 initSpider 1 []).2 =
      [2, 3, 4, 5, 6, 7, 8, 9] := by
  exact ⟨by decide, by decide⟩

/-- Claim C7 amended: the spider counts consecutive pages that yield zero
extracted stubs (resetting on any non-empty page), but reaching the
configured threshold (default 5) does not terminate the crawl — the sequence
of requested pages depends only on the pagination-enabled flag and the
next-page-availability check, never on the extracted stubs or the
empty-page counter; a next page is requested exactly when the check reports
one available, and the crawl ends only when it does not. -/
theorem crawl_requests_spec (pe : Bool) (cn : Nat → Bool)
    (pj pj2 : Nat → List Stub) (fuel page : Nat) (st st2 : SpiderState)
    (req : List Nat) :
    (crawlFrom pe cn pj fuel st page req).2 =
      (crawlFrom pe cn pj2 fuel st2 page req).2 ∧
    (parseStep pe cn pj st page).2 = (pe && cn page) ∧
    ((pj page).length = 0 →
      (parseStep pe cn pj st page).1.emptyPagesCount =
        (addUniqueJobs st (pj page)).emptyPagesCount + 1) ∧
    ((pj page).length ≠ 0 →
      (parseStep pe cn pj st page).1.emptyPagesCount = 0) := by
  refine ⟨?_, rfl, ?_, ?_⟩
  · induction fuel generalizing page st st2 req with
    | zero => rfl
    | succ f ih =>
      simp only [crawlFrom]
      have h2 : (parseStep pe cn pj st page).2 = (pe && cn page) := rfl
      have h2b : (parseStep pe cn pj2 st2 page).2 = (pe && cn page) := rfl
      by_cases hn : (pe && cn page) = true
      · rw [if_pos (h2.trans hn), if_pos (h2b.trans hn)]
        exact ih (page + 1) _ _ _
      · rw [if_neg (fun hc => hn (h2 ▸ hc)), if_neg (fun hc => hn (h2b ▸ hc))]
  · intro h0
    simp only [parseStep]
    rw [if_pos h0]
  · intro h0
    simp only [parseStep]
    rw [if_neg h0]

theorem crawl_requests_spec_witness :
    (crawlFrom true (fun _ => true) (fun _ => []) 3 initSpider 1 []).2 =
      (crawlFrom true (fun _ => true) (fun _ => [⟨"u"⟩]) 3 initSpider 1 []).2 ∧
    (parseStep true (fun _ => true) (fun _ => ([] : List Stub))
        initSpider 1).1.emptyPagesCount =
      (addUniqueJobs initSpider []).emptyPagesCount + 1 ∧
    (parseStep true (fun _ => true) (fun _ => [⟨"u"⟩])
        initSpider 1).1.emptyPagesCount = 0 :=
  ⟨(crawl_requests_spec true (fun _ => true) (fun _ => []) (fun _ => [⟨"u"⟩])
      3 1 initSpider initSpider []).1,
    (crawl_requests_spec true (fun _ => true) (fun _ => []) (fun _ => [⟨"u"⟩])
      3 1 initSpider initSpider []).2.2.1 (by decide),
    (crawl_requests_spec true (fun _ => true) (fun _ => [⟨"u"⟩]) (fun _ => [])
      3 1 initSpider initSpider []).2.2.2 (by decide)⟩

theorem decOptStr_enc (o : Option String) : decOptStr (encOptStr o) = some o := by
  cases o <;> rfl

theorem decOptNum_enc (o : Option ℚ) : decOptNum (encOptNum o) = some o := by
  cases o <;> rfl

theorem decOptBool_enc (o : Option Bool) : decOptBool (encOptBool o) = some o := by
  cases o <;> rfl

theorem jobTypeFromValue_value (t : JobType) :
    JobType.fromValue t.value = some t := by
  cases t <;> rfl

theorem expLevelFromValue_value (t : ExperienceLevel) :
    ExperienceLevel.fromValue t.value = some t := by
  cases t <;> rfl

theorem workArrFromValue_value (t : WorkArrangement) :
    WorkArrangement.fromValue t.value = some t := by
  cases t <;> rfl

theorem decJobType_enc (o : Option JobType) :
    decJobType (encJobType o) = some o := by
  cases o with
  | none => rfl
  | some t => simp [encJobType, decJobType, jobTypeFromValue_value]

theorem decExpLevel_enc (o : Option ExperienceLevel) :
    decExpLevel (encExpLevel o) = some o := by
  cases o with
  | none => rfl
  | some t => simp [encExpLevel, decExpLevel, expLevelFromValue_value]

theorem decWorkArr_enc (o : Option WorkArrangement) :
    decWorkArr (encWorkArr o) = some o := by
  cases o with
  | none => rfl
  | some t => simp [encWorkArr, decWorkArr, workArrFromValue_value]

theorem fdIdent_to_dict (p : JobPosting) :
    fdIdent (to_dict p) = some ⟨p.job_id, p.title, p.company, p.description, p.summary, p.location, p.city, p.state, p.country⟩ := by
  have h0 : jget (to_dict p) "job_id" = some (JVal.s p.job_id) := rfl
  have h1 : jget (to_dict p) "title" = some (JVal.s p.title) := rfl
  have h2 : jget (to_dict p) "company" = some (JVal.s p.company) := rfl
  have h3 : jget (to_dict p) "description" = some (JVal.s p.description) := rfl
  have h4 : jget (to_dict p) "summary" = some (JVal.s p.summary) := rfl
  have h5 : jget (to_dict p) "location" = some (JVal.s p.location) := rfl
  have h6 : jget (to_dict p) "city" = some (JVal.s p.city) := rfl
  have h7 : jget (to_dict p) "state" = some (JVal.s p.state) := rfl
  have h8 : jget (to_dict p) "country" = some (JVal.s p.country) := rfl
  simp only [fdIdent, getReq, getOpt, h0, h1, h2, h3, h4, h5, h6, h7, h8,
    decStr,
    Option.bind_eq_bind, Option.some_bind, Option.pure_def]

theorem fdWhen_to_dict (p : JobPosting) :
    fdWhen (to_dict p) = some ⟨p.work_arrangement, p.remote_work_option, p.hybrid_option, p.publish_date, p.application_deadline, p.start_date, p.scraped_date, p.job_type, p.experience_level⟩ := by
  have h0 : jget (to_dict p) "work_arrangement" = some (encWorkArr p.work_arrangement) := rfl
  have h1 : jget (to_dict p) "remote_work_option" = some (JVal.b p.remote_work_option) := rfl
  have h2 : jget (to_dict p) "hybrid_option" = some (JVal.b p.hybrid_option) := rfl
  have h3 : jget (to_dict p) "publish_date" = some (encOptStr p.publish_date) := rfl
  have h4 : jget (to_dict p) "application_deadline" = some (encOptStr p.application_deadline) := rfl
  have h5 : jget (to_dict p) "start_date" = some (encOptStr p.start_date) := rfl
  have h6 : jget (to_dict p) "scraped_date" = some (encOptStr p.scraped_date) := rfl
  have h7 : jget (to_dict p) "job_type" = some (encJobType p.job_type) := rfl
  have h8 : jget (to_dict p) "experience_level" = some (encExpLevel p.experience_level) := rfl
  simp only [fdWhen, getReq, getOpt, h0, h1, h2, h3, h4, h5, h6, h7, h8,
    decBool, decExpLevel_enc, decJobType_enc, decOptStr_enc, decWorkArr_enc,
    Option.bind_eq_bind, Option.some_bind, Option.pure_def]

theorem fdComp_to_dict (p : JobPosting) :
    fdComp (to_dict p) = some ⟨p.department, p.team, p.division, p.salary_min, p.salary_max, p.salary_currency, p.hourly_rate_min, p.hourly_rate_max, p.benefits⟩ := by
  have h0 : jget (to_dict p) "department" = some (JVal.s p.department) := rfl
  have h1 : jget (to_dict p) "team" = some (JVal.s p.team) := rfl
  have h2 : jget (to_dict p) "division" = some (JVal.s p.division) := rfl
  have h3 : jget (to_dict p) "salary_min" = some (encOptNum p.salary_min) := rfl
  have h4 : jget (to_dict p) "salary_max" = some (encOptNum p.salary_max) := rfl
  have h5 : jget (to_dict p) "salary_currency" = some (JVal.s p.salary_currency) := rfl
  have h6 : jget (to_dict p) "hourly_rate_min" = some (encOptNum p.hourly_rate_min) := rfl
  have h7 : jget (to_dict p) "hourly_rate_max" = some (encOptNum p.hourly_rate_max) := rfl
  have h8 : jget (to_dict p) "benefits" = some (JVal.list p.benefits) := rfl
  simp only [fdComp, getReq, getOpt, h0, h1, h2, h3, h4, h5, h6, h7, h8,
    decList, decOptNum_enc, decStr,
    Option.bind_eq_bind, Option.some_bind, Option.pure_def]

theorem fdSkills_to_dict (p : JobPosting) :
    fdSkills (to_dict p) = some ⟨p.pay_benefit, p.equity_compensation, p.required_skills, p.preferred_skills, p.minimum_qualifications, p.preferred_qualifications, p.education_requirements, p.experience_requirements, p.certifications⟩ := by
  have h0 : jget (to_dict p) "pay_benefit" = some (JVal.s p.pay_benefit) := rfl
  have h1 : jget (to_dict p) "equity_compensation" = some (JVal.b p.equity_compensation) := rfl
  have h2 : jget (to_dict p) "required_skills" = some (JVal.list p.required_skills) := rfl
  have h3 : jget (to_dict p) "preferred_skills" = some (JVal.list p.preferred_skills) := rfl
  have h4 : jget (to_dict p) "minimum_qualifications" = some (JVal.list p.minimum_qualifications) := rfl
  have h5 : jget (to_dict p) "preferred_qualifications" = some (JVal.list p.preferred_qualifications) := rfl
  have h6 : jget (to_dict p) "education_requirements" = some (JVal.list p.education_requirements) := rfl
  have h7 : jget (to_dict p) "experience_requirements" = some (JVal.list p.experience_requirements) := rfl
  have h8 : jget (to_dict p) "certifications" = some (JVal.list p.certifications) := rfl
  simp only [fdSkills, getReq, getOpt, h0, h1, h2, h3, h4, h5, h6, h7, h8,
    decBool, decList, decStr,
    Option.bind_eq_bind, Option.some_bind, Option.pure_def]

theorem fdApply_to_dict (p : JobPosting) :
    fdApply (to_dict p) = some ⟨p.languages, p.application_url, p.contact_email, p.contact_person, p.application_instructions, p.company_size, p.industry, p.company_website, p.company_description⟩ := by
  have h0 : jget (to_dict p) "languages" = some (JVal.list p.languages) := rfl
  have h1 : jget (to_dict p) "application_url" = some (JVal.s p.application_url) := rfl
  have h2 : jget (to_dict p) "contact_email" = some (JVal.s p.contact_email) := rfl
  have h3 : jget (to_dict p) "contact_person" = some (JVal.s p.contact_person) := rfl
  have h4 : jget (to_dict p) "application_instructions" = some (JVal.s p.application_instructions) := rfl
  have h5 : jget (to_dict p) "company_size" = some (JVal.s p.company_size) := rfl
  have h6 : jget (to_dict p) "industry" = some (JVal.s p.industry) := rfl
  have h7 : jget (to_dict p) "company_website" = some (JVal.s p.company_website) := rfl
  have h8 : jget (to_dict p) "company_description" = some (JVal.s p.company_description) := rfl
  simp only [fdApply, getReq, getOpt, h0, h1, h2, h3, h4, h5, h6, h7, h8,
    decList, decStr,
    Option.bind_eq_bind, Option.some_bind, Option.pure_def]

theorem fdMisc_to_dict (p : JobPosting) :
    fdMisc (to_dict p) = some ⟨p.work_schedule, p.visa_sponsorship, p.security_clearance_required, p.travel_required, p.relocation_assistance, p.source_url, p.source_platform, p.metadata⟩ := by
  have h0 : jget (to_dict p) "work_schedule" = some (JVal.s p.work_schedule) := rfl
  have h1 : jget (to_dict p) "visa_sponsorship" = some (encOptBool p.visa_sponsorship) := rfl
  have h2 : jget (to_dict p) "security_clearance_required" = some (encOptBool p.security_clearance_required) := rfl
  have h3 : jget (to_dict p) "travel_required" = some (encOptStr p.travel_required) := rfl
  have h4 : jget (to_dict p) "relocation_assistance" = some (encOptBool p.relocation_assistance) := rfl
  have h5 : jget (to_dict p) "source_url" = some (JVal.s p.source_url) := rfl
  have h6 : jget (to_dict p) "source_platform" = some (JVal.s p.source_platform) := rfl
  have h7 : jget (to_dict p) "metadata" = some (JVal.meta p.metadata) := rfl
  simp only [fdMisc, getReq, getOpt, h0, h1, h2, h3, h4, h5, h6, h7,
    decMeta, decOptBool_enc, decOptStr_enc, decStr,
    Option.bind_eq_bind, Option.some_bind, Option.pure_def]

/-- Claim C10: to_dict serializes each set enum field to its value string
and from_dict restores it, so from_dict (to_dict p) = p for every JobPosting
(whose enum fields, by typing, hold valid values or None); an unrecognized
enum string is mapped to None by from_dict. -/
theorem jobposting_roundtrip :
    (∀ p : JobPosting, from_dict (to_dict p) = some p) ∧
    from_dict [("job_id", JVal.s "1"), ("title", JVal.s "t"),
        ("company", JVal.s "c"), ("job_type", JVal.s "bogus")] =
      some { job_id := "1", title := "t", company := "c", job_type := none } := by
  constructor
  · intro p
    simp only [from_dict, fdIdent_to_dict, fdWhen_to_dict, fdComp_to_dict,
      fdSkills_to_dict, fdApply_to_dict, fdMisc_to_dict,
      Option.bind_eq_bind, Option.some_bind, Option.pure_def]
  · decide

/-- Claim C6: extract_job_posting returns no record when the page text
contains an error-page marker phrase, and never returns a record whose
job id or title is unresolved (missing or empty). -/
theorem extract_job_posting_guards (pats : SalaryPatterns) (htmlText : String)
    (o : ExtractorIn) (su : String) :
    ((∃ ind ∈ errorIndicators,
        containsSub (pyLower ind) (pyLower htmlText) = true) →
      extract_job_posting pats htmlText o su = none) ∧
    (∀ rec, extract_job_posting pats htmlText o su = some rec →
      rec.job_id ≠ "" ∧ rec.title ≠ "") := by
  constructor
  · rintro ⟨ind, hmem, hsub⟩
    rw [extract_job_posting]
    rw [if_pos (List.any_eq_true.2 ⟨ind, hmem, hsub⟩)]
  · intro rec h
    rw [extract_job_posting] at h
    by_cases hg : (errorIndicators.any
        (fun ind => containsSub (pyLower ind) (pyLower htmlText))) = true
    · rw [if_pos hg] at h
      exact absurd h (by simp)
    · rw [if_neg hg] at h
      rcases hj : o.jobId with _ | jid
      · simp only [hj] at h
        exact absurd h (by simp)
      · rcases ht : o.title with _ | t
        · simp only [hj, ht] at h
          exact absurd h (by simp)
        · simp only [hj, ht] at h
          by_cases he : jid = "" ∨ t = ""
          · rw [if_pos he] at h
            exact absurd h (by simp)
          · rw [if_neg he] at h
            push_neg at he
            simp only [Option.some_inj] at h
            rw [← h]
            exact ⟨he.1, he.2⟩

/-- Oracle for the C6 witness: job id and title resolve, nothing else. -/
def c6In : ExtractorIn :=
  { jobId := some "7"
    title := some "T"
    nowTimestamp := "now" }

/-- The record the extractor produces on `c6In`. -/
def c6Rec : JobPosting :=
  { job_id := "7", title := "T", company := "Apple Inc."
    scraped_date := some "now", job_type := some JobType.full_time
    source_platform := "jobs.apple.com" }

theorem extract_job_posting_guards_witness :
    extract_job_posting ({} : SalaryPatterns)
        "this role is no longer available" c6In "" = none ∧
    (c6Rec.job_id ≠ "" ∧ c6Rec.title ≠ "") :=
  ⟨(extract_job_posting_guards ({} : SalaryPatterns)
        "this role is no longer available" c6In "").1
      ⟨"is no longer available", by decide, by decide⟩,
    (extract_job_posting_guards ({} : SalaryPatterns) "ok" c6In "").2 c6Rec
      (by decide)⟩

theorem salaryRangeStage_minmax (pats : SalaryPatterns) (s : String) :
    (salaryRangeStage pats s).salary_min.isSome =
      (salaryRangeStage pats s).salary_max.isSome := by
  unfold salaryRangeStage
  repeat' split
  all_goals rfl

theorem hourlyStage_minmax (pats : SalaryPatterns) (s : String)
    (base : SalaryData) :
    (hourlyStage pats s base).salary_min = base.salary_min ∧
    (hourlyStage pats s base).salary_max = base.salary_max := by
  unfold hourlyStage
  repeat' split
  all_goals exact ⟨rfl, rfl⟩

theorem extract_salary_info_minmax (pats : SalaryPatterns) (s : String) :
    (extract_salary_info pats s).salary_min.isSome =
      (extract_salary_info pats s).salary_max.isSome := by
  rw [extract_salary_info]
  by_cases h : s = ""
  · rw [if_pos h]
  · rw [if_neg h]
    obtain ⟨h1, h2⟩ := hourlyStage_minmax pats s (salaryRangeStage pats s)
    rw [h1, h2]
    exact salaryRangeStage_minmax pats s

/-- Claim C9 amended: in every record the extractor produces, salary_min and
salary_max are either both absent or both present (they are the two numbers
captured by the configured range pattern, in order); the relation
salary_min ≤ salary_max is not enforced. -/
theorem extract_job_posting_salary_minmax (pats : SalaryPatterns)
    (htmlText : String) (o : ExtractorIn) (su : String) (rec : JobPosting)
    (h : extract_job_posting pats htmlText o su = some rec) :
    rec.salary_min.isSome = rec.salary_max.isSome := by
  rw [extract_job_posting] at h
  by_cases hg : (errorIndicators.any
      (fun ind => containsSub (pyLower ind) (pyLower htmlText))) = true
  · rw [if_pos hg] at h
    exact absurd h (by simp)
  · rw [if_neg hg] at h
    rcases hj : o.jobId with _ | jid
    · simp only [hj] at h
      exact absurd h (by simp)
    · rcases ht : o.title with _ | t
      · simp only [hj, ht] at h
        exact absurd h (by simp)
      · simp only [hj, ht] at h
        by_cases he : jid = "" ∨ t = ""
        · rw [if_pos he] at h
          exact absurd h (by simp)
        · rw [if_neg he] at h
          simp only [Option.some_inj] at h
          rw [← h]
          exact extract_salary_info_minmax pats (pyOrS o.payBenefit "")

/-- Salary-range pattern `(\d+)-(\d+)` for the C9 counterexample. -/
def pats9 : SalaryPatterns :=
  { salary_range_pattern := some (.cat (.group 1 none Regex.digitc.rplus)
      (.cat (Regex.strLit "-") (.group 2 none Regex.digitc.rplus))) }

/-- Oracle for the C9 counterexample: the pay text lists the larger figure
first. -/
def c9In : ExtractorIn :=
  { jobId := some "7"
    title := some "T"
    payBenefit := some "200000-100000"
    nowTimestamp := "now" }

/-- The record the extractor produces on `c9In`. -/
def c9Rec : JobPosting :=
  { job_id := "7", title := "T", company := "Apple Inc."
    scraped_date := some "now", job_type := some JobType.full_time
    source_platform := "jobs.apple.com"
    pay_benefit := "200000-100000"
    salary_min := some 200000, salary_max := some 100000 }

/-- Claim C9 as stated is false: on pay text "200000-100000" the extractor
emits a record with salary_min = 200000 and salary_max = 100000, so both are
present yet salary_min ≤ salary_max fails — the code never checks the
order of the captured numbers. -/
theorem extract_salary_minmax_counterexample :
    ((extract_job_posting pats9 "ok" c9In "").map
        (fun r => (r.salary_min, r.salary_max))) =
      some (some (200000 : ℚ), some (100000 : ℚ)) ∧
    ¬ ((200000 : ℚ) ≤ (100000 : ℚ)) :=
  ⟨by decide, by decide⟩

theorem extract_job_posting_salary_minmax_witness :
    c9Rec.salary_min.isSome = c9Rec.salary_max.isSome :=
  extract_job_posting_salary_minmax pats9 "ok" c9In "" c9Rec (by decide)

end Semantix
